import Mathlib

/-!
# sysgauges: a verification development of `src/main.c`

The program is glue between the C library, the kernel's `sysinfo` snapshot and
the cassette GUI toolkit.  The embedding keeps the program's own control flow
and arithmetic and records every call into the toolkit, in order, in a list of
`Call` events held in the global state.

Conventions of the embedding.

* A finite `double` is the rational it denotes (`ℚ`).  Every arithmetic
  operation and every conversion of an integer rounds its exact result to
  binary64, to nearest with ties to even (`b64`), as on x86-64 and AArch64;
  comparisons are exact.  Results beyond the binary64 range, infinities and
  NaN are outside the model.  `DBL_EPSILON` is `2⁻⁵²`.
* `unsigned long` and `size_t` are 64 bits wide (LP64 Linux), `unsigned int`
  is 32 bits wide; their arithmetic is done on `Nat` with an explicit
  reduction modulo `2 ^ 64` or `2 ^ 32`.
* The C library (`getopt`, `strtod`, `strtoul`, `strtol`) is outside the
  repository: it is a parameter (`Libc`) of everything that calls it, and a
  small executable instance (`decLibc`) is given to run concrete examples.
-/

namespace Sysgauge

/-! ## Machine integers and constants -/

/-- Number of values of an `unsigned long` (and of a `size_t`). -/
def ULONG_MOD : Nat := 2 ^ 64

/-- Number of values of an `unsigned int`. -/
def UINT_MOD : Nat := 2 ^ 32

/-- The constant `DBL_EPSILON` of `float.h`. -/
def DBL_EPSILON : ℚ := 1 / 2 ^ 52

/-- The constant `SI_LOAD_SHIFT` of `linux/sysinfo.h`. -/
def SI_LOAD_SHIFT : Nat := 16

/-! ### Binary64 arithmetic -/

/-- The integer nearest to a rational, the even one of the two at a tie. -/
def roundEven (q : ℚ) : ℤ :=
  if q - (⌊q⌋ : ℚ) < 1 / 2 then ⌊q⌋
  else if 1 / 2 < q - (⌊q⌋ : ℚ) then ⌊q⌋ + 1
  else if ⌊q⌋ % 2 = 0 then ⌊q⌋ else ⌊q⌋ + 1

/-- The binary64 value nearest to `x`, ties to even: 53 significant bits,
least exponent `-1022` (below it the spacing stays `2 ^ (-1074)`).  It is the
value a `double` operation returns for the exact result `x` when `|x|` is
below the overflow threshold `2 ^ 1024`. -/
def b64 (x : ℚ) : ℚ :=
  if x = 0 then 0
  else
    let e : ℤ := max (Int.log 2 |x|) (-1022)
    let ulp : ℚ := 2 ^ (e - 52)
    if x < 0 then -((roundEven (|x| / ulp) : ℤ) : ℚ) * ulp
    else ((roundEven (|x| / ulp) : ℤ) : ℚ) * ulp

/-- The product of two `double` values. -/
def fmul (a b : ℚ) : ℚ := b64 (a * b)

/-- The quotient of two `double` values, the divisor not zero. -/
def fdiv (a b : ℚ) : ℚ := b64 (a / b)

/-- The conversion of an `unsigned long` to `double`. -/
def ofULong (n : Nat) : ℚ := b64 (n : ℚ)

/-! ### Unsigned integers -/

/-- Subtraction of two `unsigned long` values: it wraps modulo `2 ^ 64`. -/
def usub (a b : Nat) : Nat := (((a : Int) - (b : Int)) % (ULONG_MOD : Int)).toNat

/-- Product of an `unsigned long` and an `unsigned int` promoted to
`unsigned long`: it wraps modulo `2 ^ 64`. -/
def umul (a b : Nat) : Nat := (a * b) % ULONG_MOD

/-! ## Data model -/

/-- The three statically allocated rows (`cpu`, `mem`, `swp`). -/
inductive RowId
  | cpu
  | mem
  | swp
  deriving DecidableEq, Repr

/-- The three widget pointers of a `struct row`. -/
inductive Slot
  | label
  | gauge
  | max
  deriving DecidableEq, Repr

/-- A widget of a row: the cell held in `r->label`, `r->gauge` or `r->max`. -/
structure Cell where
  row : RowId
  slot : Slot
  deriving DecidableEq, Repr

/-- The constant members of `struct row`, with the identity of the static object. -/
structure Row where
  id : RowId
  name : String
  unit : String
  precision : Int
  custom_max : Bool
  deriving DecidableEq, Repr

/-- The row `cpu` of the source. -/
def cpu : Row := ⟨RowId.cpu, "CPU", "%", 1, false⟩

/-- The row `mem` of the source. -/
def mem : Row := ⟨RowId.mem, "MEM", "GB", 1, true⟩

/-- The row `swp` of the source. -/
def swp : Row := ⟨RowId.swp, "SWP", "GB", 1, true⟩

/-- The two states of a beacon widget. -/
inductive BeaconState
  | CGUI_BEACON_OFF
  | CGUI_BEACON_ON
  deriving DecidableEq, Repr

/-- One piece appended to the shared string object `str`. -/
inductive CstrPart
  | num (precision : Int) (v : ℚ)
  | text (s : String)
  deriving DecidableEq, Repr

/-- The shared string object `str`: its current precision and what was appended. -/
structure Cstr where
  precision : Int
  parts : List CstrPart
  deriving DecidableEq, Repr

/-- The fields of `struct sysinfo` the program reads. -/
structure Sysinfo where
  loads0 : Nat
  totalram : Nat
  freeram : Nat
  totalswap : Nat
  freeswap : Nat
  mem_unit : Nat
  deriving DecidableEq, Repr

/-- Calls of the program into its collaborators, in the order they are made. -/
inductive Call
  | cgui_init
  | cgui_window_create
  | cgui_grid_create (cols rows : Nat)
  | cstr_create
  | cgui_grid_set_row_flex (row : Nat) (flex : ℚ)
  | cgui_grid_set_col_flex (col : Nat) (flex : ℚ)
  | cgui_grid_resize_col (col : Nat) (width : Nat)
  | cgui_beacon_create (c : Cell)
  | cgui_gauge_create (c : Cell)
  | cgui_label_create (c : Cell)
  | cstr_clear
  | cstr_set_precision (p : Int)
  | cstr_append_double (v : ℚ)
  | cstr_append_str (s : String)
  | cgui_gauge_set_precision (c : Cell) (p : Int)
  | cgui_gauge_set_units (c : Cell) (u : String)
  | cgui_gauge_clamp_value (c : Cell) (lo hi : ℚ)
  | cgui_label_set (c : Cell) (text : Cstr)
  | cgui_beacon_set_label (c : Cell) (name : String)
  | cgui_grid_assign_cell (c : Cell) (x y w h : Nat)
  | cgui_gauge_set_value (c : Cell) (v : ℚ)
  | cgui_beacon_set_state (c : Cell) (s : BeaconState)
  | cgui_window_push_grid
  | cgui_window_resize (w h : Nat)
  | cgui_window_move_smart (x1 y1 x2 y2 : Int)
  | printf (s : String)
  | printf_width
  | printf_height
  | fprintf_stderr (s : String)
  | cgui_window_rename (s : String)
  | cgui_window_set_type_underlay
  | cgui_window_activate
  | cgui_on_run
  | cgui_on_exit
  | cgui_run
  | pthread_create
  | pthread_join
  | pthread_exit
  | cgui_window_destroy
  | cgui_grid_destroy
  | cstr_destroy
  | cgui_cell_destroy (c : Cell)
  | cgui_reset
  | sysinfo (data : Sysinfo)
  | cgui_lock
  | cgui_is_running (b : Bool)
  | cgui_unlock
  | sleep (d : Nat)
  | exit (status : Int)
  deriving DecidableEq, Repr

/-- The file-scope variables of the program, with the calls made so far. -/
structure Globals where
  show_max : Bool
  verbose : Bool
  alert : ℚ
  delay : Nat
  width : Nat
  height : Nat
  x : Int
  y : Int
  str : Cstr
  pos : Nat
  calls : List Call
  deriving DecidableEq, Repr

/-- The initial values of the file-scope variables (lines 74 to 93). -/
def initial : Globals :=
  { show_max := false
    verbose := false
    alert := 95 / 100
    delay := 1
    width := 0
    height := 0
    x := 20
    y := 20
    str := ⟨0, []⟩
    pos := 0
    calls := [] }

/-- Records calls at the end of the list of calls. -/
def Globals.emit (g : Globals) (cs : List Call) : Globals :=
  { g with calls := g.calls ++ cs }

/-! ## Rows -/

/-- The shorthand `GB` of the source (line 38) applied to an `unsigned long`
operand: the operand times `data.mem_unit`, as an `unsigned long`, converted to
`double` and divided by `1073741824.0`. -/
def GB (v : Nat) (data : Sysinfo) : ℚ := fdiv (ofULong (umul v data.mem_unit)) 1073741824

/-- The calls `cstr_clear`, `cstr_set_precision` and the two `cstr_append` of
`row_setup` (lines 293 to 296), with their effect on `str`. -/
def row_setup_str (r : Row) (max : ℚ) (g : Globals) : Globals :=
  { g with
    str := ⟨r.precision, [CstrPart.num r.precision max, CstrPart.text r.unit]⟩
    calls := g.calls ++
      [Call.cstr_clear, Call.cstr_set_precision r.precision,
       Call.cstr_append_double max, Call.cstr_append_str r.unit] }

/-- The function `row_setup` (lines 281 to 316). -/
def row_setup (r : Row) (max : ℚ) (g : Globals) : Globals :=
  let g1 := g.emit
    [Call.cgui_beacon_create ⟨r.id, Slot.label⟩,
     Call.cgui_gauge_create ⟨r.id, Slot.gauge⟩,
     Call.cgui_label_create ⟨r.id, Slot.max⟩]
  if max ≤ DBL_EPSILON then
    g1
  else
    let g2 := row_setup_str r max g1
    let g3 := g2.emit
      [Call.cgui_gauge_set_precision ⟨r.id, Slot.gauge⟩ r.precision,
       Call.cgui_gauge_set_units ⟨r.id, Slot.gauge⟩ r.unit,
       Call.cgui_gauge_clamp_value ⟨r.id, Slot.gauge⟩ 0 max,
       Call.cgui_label_set ⟨r.id, Slot.max⟩ g2.str,
       Call.cgui_beacon_set_label ⟨r.id, Slot.label⟩ r.name]
    let g4 := g3.emit [Call.cgui_grid_assign_cell ⟨r.id, Slot.label⟩ 0 g3.pos 1 1]
    let g5 :=
      if g4.show_max && r.custom_max then
        g4.emit
          [Call.cgui_grid_assign_cell ⟨r.id, Slot.gauge⟩ 1 g4.pos 1 1,
           Call.cgui_grid_assign_cell ⟨r.id, Slot.max⟩ 2 g4.pos 1 1]
      else
        g4.emit [Call.cgui_grid_assign_cell ⟨r.id, Slot.gauge⟩ 1 g4.pos 2 1]
    { g5 with pos := (g5.pos + 1) % ULONG_MOD }

/-- The function `row_update` (lines 320 to 325): the calls it makes. -/
def row_update (r : Row) (val high : ℚ) : List Call :=
  [Call.cgui_gauge_set_value ⟨r.id, Slot.gauge⟩ val,
   Call.cgui_beacon_set_state ⟨r.id, Slot.label⟩
     (if val ≥ high then BeaconState.CGUI_BEACON_ON else BeaconState.CGUI_BEACON_OFF)]

/-- The function `update_all` (lines 350 to 360), given the snapshot `sysinfo`
fills in and the result of `get_nprocs` (an `int`, which converts to `double`
without rounding): the calls it makes. -/
def update_all (data : Sysinfo) (nprocs : Int) (alert : ℚ) : List Call :=
  [Call.sysinfo data] ++
  row_update cpu
    (fdiv (fdiv (fmul (ofULong data.loads0) 100) (nprocs : ℚ))
      ((1 <<< SI_LOAD_SHIFT : Nat) : ℚ))
    (fmul 100 alert) ++
  row_update mem (GB (usub data.totalram data.freeram) data)
    (fmul (GB data.totalram data) alert) ++
  row_update swp (GB (usub data.totalswap data.freeswap) data)
    (fmul (GB data.totalswap data) alert)

/-! ## Observations on a list of calls -/

/-- The grid assignments among a list of calls, in order. -/
def gridAssignments : List Call → List (Cell × Nat × Nat × Nat × Nat)
  | [] => []
  | Call.cgui_grid_assign_cell c x y w h :: cs => (c, x, y, w, h) :: gridAssignments cs
  | _ :: cs => gridAssignments cs

/-- The last value given to the gauge of a row, if any. -/
def gaugeValue (id : RowId) : List Call → Option ℚ
  | [] => none
  | Call.cgui_gauge_set_value c v :: cs =>
    match gaugeValue id cs with
    | some w => some w
    | none => if c = ⟨id, Slot.gauge⟩ then some v else none
  | _ :: cs => gaugeValue id cs

/-- The last state given to the beacon of a row, if any. -/
def beaconState (id : RowId) : List Call → Option BeaconState
  | [] => none
  | Call.cgui_beacon_set_state c s :: cs =>
    match beaconState id cs with
    | some t => some t
    | none => if c = ⟨id, Slot.label⟩ then some s else none
  | _ :: cs => beaconState id cs

/-! ## The C library, as a parameter -/

/-- One answer of `getopt` other than `-1`: the option character it returns and
the string it leaves in `optarg`. -/
structure GetoptResult where
  opt : Char
  optarg : String
  deriving DecidableEq, Repr

/-- The functions of the C library that `options` calls.  `getopt` gives the
successive answers of the calls `getopt(argc, argv, optstring)` up to the first
`-1`; the conversions take the string and, for the integer ones, the base.
The two range fields are the return types `unsigned long` and `long`. -/
structure Libc where
  getopt : String → List String → List GetoptResult
  strtod : String → ℚ
  strtoul : String → Nat → Nat
  strtol : String → Nat → Int
  strtoul_lt : ∀ s b, strtoul s b < ULONG_MOD
  strtol_range : ∀ s b, -(2 ^ 63 : Int) ≤ strtol s b ∧ strtol s b < 2 ^ 63

/-! ## Options -/

/-- How a function that may call `exit` ends: it returns, or the process is
terminated with a status. -/
inductive Outcome
  | returned (g : Globals)
  | exited (status : Int) (g : Globals)
  deriving DecidableEq, Repr

/-- The text printed by `help` (lines 169 to 180). -/
def helpText : String :=
  "sysgauges v.2.0.0\n" ++
  "usage: sysgauges [option] <value>\n" ++
  "\t-a <0.0..1.0> : alert threshold\n" ++
  "\t-h            : print this help\n" ++
  "\t-H <ulong>    : custom height\n" ++
  "\t-i <uint>     : update interval in seconds\n" ++
  "\t-m            : show max MEM and SWP values\n" ++
  "\t-v            : print extra information (window width and height)\n" ++
  "\t-w <ulong>    : custom width\n" ++
  "\t-x <long>     : custom x coordinate\n" ++
  "\t-y <long>     : custom y coordinate\n"

/-- The text printed on the error stream for an unrecognised flag (line 247). -/
def tryText : String := "try \x27sysgauges -h\x27 for more information\n"

/-- The third argument of the call of `getopt` (line 205). -/
def OPTSTRING : String := "a:hH:i:mvw:x:y:"

/-- The function `help` (lines 166 to 181). -/
def help (g : Globals) : Globals := g.emit [Call.printf helpText]

/-- The `switch` of `options` (lines 207 to 249) on one answer of `getopt`. -/
def options_case (lc : Libc) (r : GetoptResult) (g : Globals) : Outcome :=
  if r.opt = 'a' then
    Outcome.returned { g with alert := lc.strtod r.optarg }
  else if r.opt = 'h' then
    Outcome.exited 0 ((help g).emit [Call.exit 0])
  else if r.opt = 'H' then
    Outcome.returned { g with height := lc.strtoul r.optarg 0 }
  else if r.opt = 'i' then
    Outcome.returned { g with delay := lc.strtoul r.optarg 0 % UINT_MOD }
  else if r.opt = 'm' then
    Outcome.returned { g with show_max := true }
  else if r.opt = 'v' then
    Outcome.returned { g with verbose := true }
  else if r.opt = 'w' then
    Outcome.returned { g with width := lc.strtoul r.optarg 0 }
  else if r.opt = 'x' then
    Outcome.returned { g with x := lc.strtol r.optarg 0 }
  else if r.opt = 'y' then
    Outcome.returned { g with y := lc.strtol r.optarg 0 }
  else
    Outcome.exited 0 (g.emit [Call.fprintf_stderr tryText, Call.exit 0])

/-- The `while` loop of `options` (lines 205 to 250) over the answers of `getopt`. -/
def options_loop (lc : Libc) : List GetoptResult → Globals → Outcome
  | [], g => Outcome.returned g
  | r :: rs, g =>
    match options_case lc r g with
    | Outcome.returned g1 => options_loop lc rs g1
    | Outcome.exited status g1 => Outcome.exited status g1

/-- The function `options` (lines 200 to 251). -/
def options (lc : Libc) (argv : List String) (g : Globals) : Outcome :=
  options_loop lc (lc.getopt OPTSTRING argv) g

/-! ## Main -/

/-- The function `resize` (lines 255 to 267). -/
def resize (g : Globals) : Globals :=
  let g1 := g.emit
    [Call.cgui_window_resize g.width g.height,
     Call.cgui_window_move_smart g.x g.y g.x g.y]
  if g1.verbose then
    g1.emit [Call.printf "window size updated\n", Call.printf_width, Call.printf_height]
  else
    g1

/-- The function `row_destroy` (lines 271 to 277). -/
def row_destroy (r : Row) (g : Globals) : Globals :=
  g.emit
    [Call.cgui_cell_destroy ⟨r.id, Slot.label⟩,
     Call.cgui_cell_destroy ⟨r.id, Slot.gauge⟩,
     Call.cgui_cell_destroy ⟨r.id, Slot.max⟩]

/-- The function `on_run` (lines 192 to 196). -/
def on_run (g : Globals) : Globals := g.emit [Call.pthread_create]

/-- The function `on_exit` (lines 184 to 188). -/
def on_exit (g : Globals) : Globals := g.emit [Call.pthread_join]

/-- The number of rows `main` creates the grid with (line 112). -/
def gridRows (data : Sysinfo) : Nat := if data.totalswap > 0 then 3 else 2

/-- The creation and configuration of the window, grid and string in `main`
(lines 111 to 124). -/
def main_grid (data : Sysinfo) (g : Globals) : Globals :=
  let g1 := { g with str := ⟨0, []⟩ }
  g1.emit
    [Call.cgui_window_create,
     Call.cgui_grid_create 3 (gridRows data),
     Call.cstr_create,
     Call.cgui_grid_set_row_flex 0 1,
     Call.cgui_grid_set_row_flex 1 1,
     Call.cgui_grid_set_row_flex 2 1,
     Call.cgui_grid_set_col_flex 1 1,
     Call.cgui_grid_resize_col 0 3,
     Call.cgui_grid_resize_col 1 6,
     Call.cgui_grid_resize_col 2 6]

/-- The three calls of `row_setup` in `main` (lines 128 to 130). -/
def main_rows (data : Sysinfo) (g : Globals) : Globals :=
  row_setup swp (GB data.totalswap data)
    (row_setup mem (GB data.totalram data)
      (row_setup cpu 100 g))

/-- The window configuration, run and cleanup of `main` (lines 134 to 157).
The toolkit calls the registered `on_run` when `cgui_run` starts and the
registered `on_exit` when it ends. -/
def main_run (g : Globals) : Globals :=
  let g1 := resize (g.emit [Call.cgui_window_push_grid])
  let g2 := g1.emit
    [Call.cgui_window_rename "sysmeter",
     Call.cgui_window_set_type_underlay,
     Call.cgui_window_activate,
     Call.cgui_on_run,
     Call.cgui_on_exit,
     Call.cgui_run]
  let g3 := on_exit (on_run g2)
  let g4 := g3.emit [Call.cgui_window_destroy, Call.cgui_grid_destroy, Call.cstr_destroy]
  (row_destroy swp (row_destroy mem (row_destroy cpu g4))).emit [Call.cgui_reset]

/-- The function `main` (lines 100 to 160), given the snapshot that `sysinfo`
fills in at line 109: the exit status of the process and the final globals. -/
def main (lc : Libc) (data : Sysinfo) (argv : List String) : Int × Globals :=
  match options lc argv (initial.emit [Call.cgui_init]) with
  | Outcome.exited status g => (status, g)
  | Outcome.returned g =>
    (0, main_run (main_rows data (main_grid data (g.emit [Call.sysinfo data]))))

/-! ## The polling thread -/

/-- What the environment answers to the polling thread at its successive
cycles: the snapshot of `sysinfo`, the result of `get_nprocs` and the reading
of `cgui_is_running`. -/
structure Env where
  snapshot : Nat → Sysinfo
  nprocs : Nat → Int
  running : Nat → Bool

/-- One pass through the body of the loop of `thread` (lines 338 to 342), the
`k`-th one. -/
def thread_cycle (env : Env) (g : Globals) (k : Nat) : List Call :=
  [Call.cgui_lock] ++
  update_all (env.snapshot k) (env.nprocs k) g.alert ++
  [Call.cgui_is_running (env.running k), Call.cgui_unlock, Call.sleep g.delay]

/-- The loop of `thread` (lines 336 to 345) from its `k`-th test of `run`: the
calls made until `pthread_exit`, or `none` when the fuel runs out first. -/
def thread_loop (env : Env) (g : Globals) : Nat → Nat → Bool → Option (List Call)
  | _, _, false => some [Call.pthread_exit]
  | 0, _, true => none
  | fuel + 1, k, true =>
    match thread_loop env g fuel (k + 1) (env.running k) with
    | some cs => some (thread_cycle env g k ++ cs)
    | none => none

/-- The function `thread` (lines 329 to 346): `run` starts `true`. -/
def thread (env : Env) (g : Globals) (fuel : Nat) : Option (List Call) :=
  thread_loop env g fuel 0 true

/-- The number of passes through the loop body in a list of calls of the
thread: each pass locks once. -/
def cycleCount : List Call → Nat
  | [] => 0
  | Call.cgui_lock :: cs => cycleCount cs + 1
  | _ :: cs => cycleCount cs

/-! ### The thread, statement by statement

The same loop with one transition per statement, to follow what happens when
the running flag of the toolkit changes between two statements. -/

/-- The statement of `thread` that is executed next. -/
inductive Pc
  | test
  | lock
  | update
  | read
  | unlock
  | sleep
  | done
  deriving DecidableEq, Repr

/-- The local state of the thread: the next statement, the variable `run` and
the seconds spent in `sleep` so far. -/
structure ThreadState where
  pc : Pc
  run : Bool
  slept : Nat
  deriving DecidableEq, Repr

/-- One statement of `thread` (lines 336 to 345), with the value `flag` that
`cgui_is_running` would return now. -/
def thread_step (delay : Nat) (flag : Bool) (s : ThreadState) : ThreadState :=
  match s.pc with
  | Pc.test => if s.run then { s with pc := Pc.lock } else { s with pc := Pc.done }
  | Pc.lock => { s with pc := Pc.update }
  | Pc.update => { s with pc := Pc.read }
  | Pc.read => { s with run := flag, pc := Pc.unlock }
  | Pc.unlock => { s with pc := Pc.sleep }
  | Pc.sleep => { s with slept := s.slept + delay, pc := Pc.test }
  | Pc.done => s

/-- Runs the thread from `s` while the flag reads `flag i` at the `i`-th
statement from now; `none` when the fuel runs out before `pthread_exit`. -/
def thread_run (delay : Nat) (flag : Nat → Bool) : Nat → Nat → ThreadState → Option ThreadState
  | 0, _, s => if s.pc = Pc.done then some s else none
  | fuel + 1, i, s =>
    if s.pc = Pc.done then some s
    else thread_run delay flag fuel (i + 1) (thread_step delay (flag i) s)

/-- The state of the thread in its first cycles, while the flag has read
`true`, when its next statement is `p`. -/
def atPoint (p : Pc) (slept : Nat) : ThreadState := ⟨p, true, slept⟩

/-- The seconds the thread still sleeps when the running flag turns false
while its next statement is `p`, up to `pthread_exit`. -/
def shutdownLatency (delay : Nat) (p : Pc) (fuel : Nat) : Option Nat :=
  (thread_run delay (fun _ => false) fuel 0 (atPoint p 0)).map (fun s => s.slept)

/-- The points of the cycle: the five statements of the loop body. -/
def cyclePoints : List Pc := [Pc.lock, Pc.update, Pc.read, Pc.unlock, Pc.sleep]

/-! ## An executable instance of the C library

A model of the part of the C library that the examples need: `getopt` as POSIX
describes it (the scan stops at the first word that is not an option; the GNU
reordering of the words is not modelled), `strtoul` and `strtol` with the base
detection of base `0`, `strtod` on decimal numerals.  Hexadecimal floating
numerals, infinities and NaN are outside the model. -/

/-- Looks the option character `c` up in the option string: `none` when it is
not an option, `some true` when it is one that takes an argument. -/
def optLookup (c : Char) : List Char → Option Bool
  | [] => none
  | o :: rest =>
    if o = c ∧ c ≠ ':' then some (rest.head? = some ':')
    else optLookup c rest

/-- The scan of `getopt`: `cluster` is what remains of the word being read
(empty between two words), `words` the words after it. -/
def getoptScan (optstring : List Char) :
    Nat → List Char → List (List Char) → List GetoptResult
  | 0, _, _ => []
  | fuel + 1, [], words =>
    match words with
    | [] => []
    | ('-' :: c :: cs) :: rest =>
      if c = '-' ∧ cs = [] then [] else getoptScan optstring fuel (c :: cs) rest
    | _ :: _ => []
  | fuel + 1, c :: cs, words =>
    match optLookup c optstring with
    | none => ⟨'?', ""⟩ :: getoptScan optstring fuel cs words
    | some false => ⟨c, ""⟩ :: getoptScan optstring fuel cs words
    | some true =>
      match cs, words with
      | [], [] => [⟨'?', ""⟩]
      | [], w :: rest => ⟨c, String.mk w⟩ :: getoptScan optstring fuel [] rest
      | _ :: _, _ => ⟨c, String.mk cs⟩ :: getoptScan optstring fuel [] words

/-- The successive answers of `getopt` on `argv`, whose first word is the
name of the program. -/
def getoptAll (optstring : String) (argv : List String) : List GetoptResult :=
  let words := (argv.drop 1).map String.toList
  getoptScan optstring.toList (2 * (words.map List.length).sum + words.length + 1) [] words

/-- The characters that `isspace` accepts in the C locale. -/
def isSpace (c : Char) : Bool :=
  c.toNat = 32 || (9 ≤ c.toNat && c.toNat ≤ 13)

/-- Drops the leading white space of a string. -/
def skipSpace : List Char → List Char
  | [] => []
  | c :: cs => if isSpace c then skipSpace cs else c :: cs

/-- The value of a character as a digit, whatever the base. -/
def digitVal (c : Char) : Option Nat :=
  if 48 ≤ c.toNat ∧ c.toNat ≤ 57 then some (c.toNat - 48)
  else if 97 ≤ c.toNat ∧ c.toNat ≤ 122 then some (c.toNat - 87)
  else if 65 ≤ c.toNat ∧ c.toNat ≤ 90 then some (c.toNat - 55)
  else none

/-- Reads the longest run of digits of the base: its value from the
accumulator `acc`, the number of digits read, and what follows. -/
def readDigits (base : Nat) : List Char → Nat → Nat → Nat × Nat × List Char
  | [], acc, n => (acc, n, [])
  | c :: cs, acc, n =>
    match digitVal c with
    | some d => if d < base then readDigits base cs (acc * base + d) (n + 1) else (acc, n, c :: cs)
    | none => (acc, n, c :: cs)

/-- Splits an optional sign off: `true` for a minus sign. -/
def readSign : List Char → Bool × List Char
  | '-' :: cs => (true, cs)
  | '+' :: cs => (false, cs)
  | cs => (false, cs)

/-- The magnitude that `strtoul` and `strtol` read with the given base (`0`
for the detection of the base from the leading `0x` or `0`), with the sign. -/
def readInteger (s : List Char) (base : Nat) : Bool × Nat :=
  let (neg, t) := readSign (skipSpace s)
  let hex : Option (List Char) :=
    match t with
    | '0' :: x :: d :: rest =>
      if (x = 'x' ∨ x = 'X') ∧ (digitVal d).any (fun v => v < 16) then some (d :: rest) else none
    | _ => none
  if base = 0 then
    match hex with
    | some digits => (neg, (readDigits 16 digits 0 0).1)
    | none =>
      if t.head? = some '0' then (neg, (readDigits 8 t 0 0).1)
      else (neg, (readDigits 10 t 0 0).1)
  else if base = 16 then
    match hex with
    | some digits => (neg, (readDigits 16 digits 0 0).1)
    | none => (neg, (readDigits 16 t 0 0).1)
  else (neg, (readDigits base t 0 0).1)

/-- A model of `strtoul`: out of range gives `ULONG_MAX`, a minus sign negates
modulo `2 ^ 64`, no digits give `0`. -/
def strtoulModel (s : String) (base : Nat) : Nat :=
  let (neg, m) := readInteger s.toList base
  if ULONG_MOD ≤ m then ULONG_MOD - 1
  else if neg then (ULONG_MOD - m) % ULONG_MOD
  else m

/-- A model of `strtol`: out of range gives `LONG_MIN` or `LONG_MAX`, no digits
give `0`. -/
def strtolModel (s : String) (base : Nat) : Int :=
  let (neg, m) := readInteger s.toList base
  if neg then (if 2 ^ 63 ≤ m then -(2 ^ 63 : Int) else -(m : Int))
  else (if 2 ^ 63 ≤ m then (2 ^ 63 - 1 : Int) else (m : Int))

/-- A model of `strtod` on decimal numerals: sign, digits, an optional
fraction and an optional exponent; `0` when there is no digit. -/
def strtodModel (s : String) : ℚ :=
  let (neg, t) := readSign (skipSpace s.toList)
  let (ip, n1, t1) := readDigits 10 t 0 0
  let (fp, n2, t2) :=
    match t1 with
    | '.' :: rest => readDigits 10 rest 0 0
    | _ => (0, 0, t1)
  let ex : Int :=
    match t2 with
    | e :: rest =>
      if e = 'e' ∨ e = 'E' then
        let (eneg, t3) := readSign rest
        let (ev, _, _) := readDigits 10 t3 0 0
        if eneg then -(ev : Int) else (ev : Int)
      else 0
    | [] => 0
  let mant : ℚ := (ip : ℚ) + (fp : ℚ) / (10 : ℚ) ^ n2
  let v : ℚ := mant * (10 : ℚ) ^ ex
  if n1 + n2 = 0 then 0 else if neg then -v else v

/-- The model of the C library used to run the examples. -/
def decLibc : Libc :=
  { getopt := getoptAll
    strtod := strtodModel
    strtoul := strtoulModel
    strtol := strtolModel
    strtoul_lt := by
      intro s b
      unfold strtoulModel
      generalize readInteger s.toList b = r
      obtain ⟨neg, m⟩ := r
      have hpos : 0 < ULONG_MOD := by unfold ULONG_MOD; norm_num
      simp only
      split_ifs with h1 h2
      · omega
      · exact Nat.mod_lt _ hpos
      · omega
    strtol_range := by
      intro s b
      unfold strtolModel
      generalize readInteger s.toList b = r
      obtain ⟨neg, m⟩ := r
      simp only
      split_ifs with h1 h2 h3 <;> constructor <;> omega }

/-! ## Observations on the answers of `getopt` -/

/-- The flags whose case in `options` sets a parameter and goes on. -/
def settingFlags : List Char := ['a', 'H', 'i', 'm', 'v', 'w', 'x', 'y']

/-- The argument given with the last occurrence of the flag `c`, if any. -/
def lastArg (c : Char) : List GetoptResult → Option String
  | [] => none
  | r :: rs =>
    match lastArg c rs with
    | some s => some s
    | none => if r.opt = c then some r.optarg else none

/-- Whether the flag `c` occurs among the answers. -/
def flagAppears (c : Char) : List GetoptResult → Bool
  | [] => false
  | r :: rs => decide (r.opt = c) || flagAppears c rs

/-- The grid assignments of one placed row at the row index `y`: what the
placement policy of `row_setup` gives for the flag `show_max`. -/
def rowCells (show_max : Bool) (r : Row) (y : Nat) : List (Cell × Nat × Nat × Nat × Nat) :=
  if show_max = true ∧ r.custom_max = true then
    [(⟨r.id, Slot.label⟩, 0, y, 1, 1), (⟨r.id, Slot.gauge⟩, 1, y, 1, 1),
     (⟨r.id, Slot.max⟩, 2, y, 1, 1)]
  else
    [(⟨r.id, Slot.label⟩, 0, y, 1, 1), (⟨r.id, Slot.gauge⟩, 1, y, 2, 1)]

/-- The calls of `count` successive passes through the loop body of the
thread, from the pass number `start`. -/
def cyclesFrom (env : Env) (g : Globals) : Nat → Nat → List Call
  | _, 0 => []
  | start, count + 1 => thread_cycle env g start ++ cyclesFrom env g (start + 1) count

/-! ## Lemmas on the observations -/

theorem gridAssignments_append (xs ys : List Call) :
    gridAssignments (xs ++ ys) = gridAssignments xs ++ gridAssignments ys := by
  induction xs with
  | nil => rfl
  | cons c cs ih => cases c <;> simp [gridAssignments, ih]

theorem gaugeValue_append_of_some (id : RowId) (v : ℚ) (xs ys : List Call)
    (h : gaugeValue id ys = some v) : gaugeValue id (xs ++ ys) = some v := by
  induction xs with
  | nil => simpa using h
  | cons c cs ih => cases c <;> simp [gaugeValue, ih]

theorem beaconState_append_of_some (id : RowId) (b : BeaconState) (xs ys : List Call)
    (h : beaconState id ys = some b) : beaconState id (xs ++ ys) = some b := by
  induction xs with
  | nil => simpa using h
  | cons c cs ih => cases c <;> simp [beaconState, ih]

theorem gaugeValue_append_row_update (r : Row) (val high : ℚ) (cs : List Call) :
    gaugeValue r.id (cs ++ row_update r val high) = some val :=
  gaugeValue_append_of_some _ _ _ _ (by simp [row_update, gaugeValue])

theorem beaconState_append_row_update (r : Row) (val high : ℚ) (cs : List Call) :
    beaconState r.id (cs ++ row_update r val high) =
      some (if val ≥ high then BeaconState.CGUI_BEACON_ON
            else BeaconState.CGUI_BEACON_OFF) :=
  beaconState_append_of_some _ _ _ _ (by simp [row_update, beaconState])

theorem beacon_on_iff (p : Prop) [Decidable p] :
    (some (if p then BeaconState.CGUI_BEACON_ON else BeaconState.CGUI_BEACON_OFF) =
      some BeaconState.CGUI_BEACON_ON) ↔ p := by
  by_cases h : p <;> simp [h]

/-! ## Lemmas on the machine arithmetic -/

theorem umul_exact (t u : Nat) (h : t * u < ULONG_MOD) : umul t u = t * u := by
  unfold umul
  exact Nat.mod_eq_of_lt h

theorem umul_usub_exact (t f u : Nat)
    (h0 : 0 ≤ ((t : Int) - (f : Int)) * (u : Int))
    (h1 : ((t : Int) - (f : Int)) * (u : Int) < 2 ^ 64) :
    ((umul (usub t f) u : Nat) : Int) = ((t : Int) - (f : Int)) * (u : Int) := by
  rcases Nat.eq_zero_or_pos u with hu | hu
  · subst hu
    simp [umul]
  · have hu1 : (1 : Int) ≤ (u : Int) := by exact_mod_cast hu
    have hd : 0 ≤ (t : Int) - (f : Int) := by
      by_contra hneg
      have : ((t : Int) - (f : Int)) * (u : Int) < 0 :=
        mul_neg_of_neg_of_pos (not_le.mp hneg) (by omega)
      omega
    have hle : (t : Int) - (f : Int) ≤ ((t : Int) - (f : Int)) * (u : Int) := by
      nlinarith
    have hs : ((usub t f : Nat) : Int) = (t : Int) - (f : Int) := by
      unfold usub ULONG_MOD
      rw [Int.toNat_of_nonneg (Int.emod_nonneg _ (by norm_num))]
      exact Int.emod_eq_of_lt hd (by push_cast; omega)
    have hm : usub t f * u < ULONG_MOD := by
      have : ((usub t f * u : Nat) : Int) < 2 ^ 64 := by
        push_cast
        rw [hs]
        exact h1
      unfold ULONG_MOD
      exact_mod_cast this
    rw [umul_exact _ _ hm]
    push_cast
    rw [hs]

/-! ## Lemmas on the binary64 rounding -/

theorem roundEven_intCast (z : ℤ) : roundEven (z : ℚ) = z := by
  simp [roundEven]

theorem floor_le_roundEven (q : ℚ) : ⌊q⌋ ≤ roundEven q := by
  unfold roundEven
  split_ifs <;> omega

theorem roundEven_of_lt (q : ℚ) (f : ℤ) (h1 : (f : ℚ) ≤ q) (h2 : q - (f : ℚ) < 1 / 2) :
    roundEven q = f := by
  have hf : ⌊q⌋ = f := by
    rw [Int.floor_eq_iff]
    constructor
    · exact h1
    · linarith
  unfold roundEven
  rw [hf, if_pos h2]

theorem roundEven_of_gt (q : ℚ) (f : ℤ) (h1 : q < (f : ℚ) + 1) (h2 : 1 / 2 < q - (f : ℚ)) :
    roundEven q = f + 1 := by
  have hf : ⌊q⌋ = f := by
    rw [Int.floor_eq_iff]
    constructor
    · linarith
    · exact h1
  have h3 : ¬ q - (f : ℚ) < 1 / 2 := not_lt.mpr (le_of_lt h2)
  unfold roundEven
  rw [hf, if_neg h3, if_pos h2]

theorem b64_zero : b64 0 = 0 := by
  simp [b64]

theorem log_eq_of_bounds (x : ℚ) (e : ℤ) (hx : 0 < x) (h1 : (2 : ℚ) ^ e ≤ x)
    (h2 : x < (2 : ℚ) ^ (e + 1)) : Int.log 2 x = e := by
  have a : e ≤ Int.log 2 x :=
    (Int.zpow_le_iff_le_log (by norm_num) hx).mp (by simpa using h1)
  have b : Int.log 2 x < e + 1 :=
    (Int.lt_zpow_iff_log_lt (by norm_num) hx).mp (by simpa using h2)
  omega

theorem b64_of_pos (x : ℚ) (e : ℤ) (hx : 0 < x) (h1 : (2 : ℚ) ^ e ≤ x)
    (h2 : x < (2 : ℚ) ^ (e + 1)) (hmin : -1022 ≤ e) :
    b64 x = ((roundEven (x / 2 ^ (e - 52)) : ℤ) : ℚ) * 2 ^ (e - 52) := by
  have hl : Int.log 2 x = e := log_eq_of_bounds x e hx h1 h2
  have hne : x ≠ 0 := ne_of_gt hx
  have hnl : ¬ x < 0 := not_lt.mpr (le_of_lt hx)
  simp only [b64, hne, if_false, hl, max_eq_left hmin, hnl, abs_of_pos hx]

theorem zpow_split (L : ℤ) : ((2 ^ 52 : ℤ) : ℚ) * 2 ^ (L - 52) = 2 ^ L := by
  rw [zpow_sub₀ (by norm_num : (2 : ℚ) ≠ 0)]
  norm_num
  field_simp

theorem b64_ge_zpow (x : ℚ) (k : ℤ) (hk : -1022 ≤ k) (h : (2 : ℚ) ^ k ≤ x) :
    (2 : ℚ) ^ k ≤ b64 x := by
  have hx : 0 < x := lt_of_lt_of_le (by positivity) h
  have h1 : (2 : ℚ) ^ (Int.log 2 x) ≤ x := by
    simpa using @Int.zpow_log_le_self ℚ _ _ 2 x (by norm_num) hx
  have h2 : x < (2 : ℚ) ^ (Int.log 2 x + 1) := by
    simpa using @Int.lt_zpow_succ_log_self ℚ _ _ 2 (by norm_num) x
  have hkl : k ≤ Int.log 2 x :=
    (Int.zpow_le_iff_le_log (by norm_num) hx).mp (by simpa using h)
  rw [b64_of_pos x (Int.log 2 x) hx h1 h2 (by omega)]
  have hu : (0 : ℚ) < 2 ^ (Int.log 2 x - 52) := by positivity
  have hq : ((2 ^ 52 : ℤ) : ℚ) ≤ x / 2 ^ (Int.log 2 x - 52) := by
    rw [le_div_iff₀ hu]
    rw [zpow_split]
    exact h1
  have hr : (2 ^ 52 : ℤ) ≤ roundEven (x / 2 ^ (Int.log 2 x - 52)) :=
    le_trans (Int.le_floor.mpr hq) (floor_le_roundEven _)
  have hr2 : ((2 ^ 52 : ℤ) : ℚ) ≤ ((roundEven (x / 2 ^ (Int.log 2 x - 52)) : ℤ) : ℚ) := by
    exact_mod_cast hr
  calc (2 : ℚ) ^ k ≤ 2 ^ (Int.log 2 x) := zpow_le_zpow_right₀ (by norm_num) hkl
    _ = ((2 ^ 52 : ℤ) : ℚ) * 2 ^ (Int.log 2 x - 52) := (zpow_split _).symm
    _ ≤ _ := mul_le_mul_of_nonneg_right hr2 (le_of_lt hu)

theorem b64_exact (n : ℕ) (z : ℤ) (hn : n < 2 ^ 53) (hz : -1074 ≤ z) :
    b64 ((n : ℚ) * 2 ^ z) = (n : ℚ) * 2 ^ z := by
  rcases Nat.eq_zero_or_pos n with h0 | hpos
  · subst h0
    simp [b64]
  have h2z : (0 : ℚ) < 2 ^ z := by positivity
  have hx : (0 : ℚ) < (n : ℚ) * 2 ^ z := mul_pos (by exact_mod_cast hpos) h2z
  have hne : (n : ℚ) * 2 ^ z ≠ 0 := ne_of_gt hx
  have hnl : ¬ (n : ℚ) * 2 ^ z < 0 := not_lt.mpr (le_of_lt hx)
  have hlog : Int.log 2 ((n : ℚ) * 2 ^ z) < 53 + z := by
    apply (Int.lt_zpow_iff_log_lt (by norm_num) hx).mp
    have : ((2 : ℕ) : ℚ) ^ (53 + z) = 2 ^ (53 : ℕ) * 2 ^ z := by
      rw [← zpow_natCast, ← zpow_add₀ (by norm_num : (2 : ℚ) ≠ 0)]
      norm_num
    rw [this]
    apply mul_lt_mul_of_pos_right _ h2z
    exact_mod_cast hn
  obtain ⟨e, he⟩ : ∃ e, e = max (Int.log 2 ((n : ℚ) * 2 ^ z)) (-1022) := ⟨_, rfl⟩
  have hk : 0 ≤ z - e + 52 := by
    rcases le_total (Int.log 2 ((n : ℚ) * 2 ^ z)) (-1022) with hle | hle
    · rw [max_eq_right hle] at he
      omega
    · rw [max_eq_left hle] at he
      omega
  have hq : (n : ℚ) * 2 ^ z / 2 ^ (e - 52) = (((n : ℤ) * 2 ^ (z - e + 52).toNat : ℤ) : ℚ) := by
    push_cast
    rw [← zpow_natCast, Int.toNat_of_nonneg hk, mul_div_assoc,
      ← zpow_sub₀ (by norm_num : (2 : ℚ) ≠ 0)]
    congr 2
    omega
  simp only [b64, hne, if_false, hnl, abs_of_pos hx, ← he]
  rw [hq, roundEven_intCast]
  push_cast
  rw [← zpow_natCast, Int.toNat_of_nonneg hk, mul_assoc,
    ← zpow_add₀ (by norm_num : (2 : ℚ) ≠ 0)]
  congr 2
  omega

theorem b64_natCast (n : ℕ) (hn : n < 2 ^ 53) : b64 (n : ℚ) = (n : ℚ) := by
  have := b64_exact n 0 hn (by norm_num)
  simpa using this

theorem b64_div_exact (n : ℕ) (hn : n < 2 ^ 53) :
    b64 (b64 (n : ℚ) / 2 ^ 30) = (n : ℚ) / 2 ^ 30 := by
  rw [b64_natCast n hn]
  have e : (n : ℚ) / 2 ^ 30 = (n : ℚ) * 2 ^ (-30 : ℤ) := by
    rw [zpow_neg, div_eq_mul_inv]
    norm_num
  rw [e]
  exact b64_exact n (-30) hn (by norm_num)

/-! ## Lemmas on `GB` -/

theorem GB_of_fits (t : Nat) (data : Sysinfo) (h : t * data.mem_unit < ULONG_MOD) :
    GB t data = b64 (b64 ((t : ℚ) * (data.mem_unit : ℚ)) / 2 ^ 30) := by
  unfold GB fdiv ofULong
  rw [umul_exact _ _ h]
  push_cast
  norm_num

theorem GB_usub_of_fits (t f : Nat) (data : Sysinfo)
    (h0 : 0 ≤ ((t : Int) - (f : Int)) * (data.mem_unit : Int))
    (h1 : ((t : Int) - (f : Int)) * (data.mem_unit : Int) < 2 ^ 64) :
    GB (usub t f) data =
      b64 (b64 (((t : ℚ) - (f : ℚ)) * (data.mem_unit : ℚ)) / 2 ^ 30) := by
  unfold GB fdiv ofULong
  have e := umul_usub_exact t f data.mem_unit h0 h1
  have e2 : ((umul (usub t f) data.mem_unit : Nat) : ℚ) =
      ((t : ℚ) - (f : ℚ)) * (data.mem_unit : ℚ) := by
    have := congrArg (fun z : Int => (z : ℚ)) e
    simpa using this
  rw [e2]
  norm_num

theorem GB_zero (data : Sysinfo) : GB 0 data = 0 := by
  simp [GB, fdiv, ofULong, umul, b64_zero]

/-! ## Row update -/

/-- Claim C1: after `row_update r val high`, whatever calls came before, the
gauge of the row holds `val`, and the beacon of the row is ON exactly when
`val ≥ high` (in particular at `val = high`) and OFF exactly when `val < high`. -/
theorem row_update_gauge_and_beacon (r : Row) (val high : ℚ) (cs : List Call) :
    gaugeValue r.id (cs ++ row_update r val high) = some val ∧
    (beaconState r.id (cs ++ row_update r val high) = some BeaconState.CGUI_BEACON_ON
      ↔ val ≥ high) ∧
    (beaconState r.id (cs ++ row_update r val high) = some BeaconState.CGUI_BEACON_OFF
      ↔ val < high) ∧
    beaconState r.id (cs ++ row_update r high high) = some BeaconState.CGUI_BEACON_ON := by
  refine ⟨gaugeValue_append_row_update r val high cs, ?_, ?_, ?_⟩
  · rw [beaconState_append_row_update]
    by_cases h : val ≥ high <;> simp [h]
  · rw [beaconState_append_row_update]
    by_cases h : val ≥ high
    · simp [h]
    · simp only [h, if_false, true_iff]
      exact lt_of_not_ge h
  · rw [beaconState_append_row_update]
    simp

/-! ## Row setup -/

theorem row_setup_of_le (r : Row) (max : ℚ) (g : Globals) (h : max ≤ DBL_EPSILON) :
    row_setup r max g =
      { g with calls := g.calls ++
          [Call.cgui_beacon_create ⟨r.id, Slot.label⟩,
           Call.cgui_gauge_create ⟨r.id, Slot.gauge⟩,
           Call.cgui_label_create ⟨r.id, Slot.max⟩] } := by
  simp [row_setup, h, Globals.emit]

theorem row_setup_grid_of_le (r : Row) (max : ℚ) (g : Globals) (h : max ≤ DBL_EPSILON) :
    gridAssignments (row_setup r max g).calls = gridAssignments g.calls := by
  rw [row_setup_of_le r max g h]
  simp [gridAssignments_append, gridAssignments]

theorem row_setup_grid_of_gt (r : Row) (max : ℚ) (g : Globals) (h : DBL_EPSILON < max) :
    gridAssignments (row_setup r max g).calls =
      gridAssignments g.calls ++ rowCells g.show_max r g.pos := by
  have hn : ¬ max ≤ DBL_EPSILON := not_le.mpr h
  by_cases hc : g.show_max = true ∧ r.custom_max = true
  · obtain ⟨h1, h2⟩ := hc
    simp [row_setup, hn, Globals.emit, row_setup_str, h1, h2, gridAssignments_append,
      gridAssignments, rowCells]
  · have hb : (g.show_max && r.custom_max) = false := by
      cases hs : g.show_max <;> cases hm : r.custom_max <;> simp_all
    simp [row_setup, hn, Globals.emit, row_setup_str, hb, hc, gridAssignments_append,
      gridAssignments, rowCells]

theorem row_setup_pos_of_gt (r : Row) (max : ℚ) (g : Globals) (h : DBL_EPSILON < max) :
    (row_setup r max g).pos = (g.pos + 1) % ULONG_MOD := by
  have hn : ¬ max ≤ DBL_EPSILON := not_le.mpr h
  by_cases hc : (g.show_max && r.custom_max) = true <;>
    simp [row_setup, hn, Globals.emit, row_setup_str, hc]

theorem row_setup_show_max (r : Row) (max : ℚ) (g : Globals) :
    (row_setup r max g).show_max = g.show_max := by
  by_cases hn : max ≤ DBL_EPSILON
  · simp [row_setup, hn, Globals.emit]
  · by_cases hc : (g.show_max && r.custom_max) = true <;>
      simp [row_setup, hn, Globals.emit, row_setup_str, hc]

/-- Claim C5: when `max ≤ DBL_EPSILON`, `row_setup` makes exactly the three
creation calls of the row's widgets and nothing else: no grid assignment, no
clamp range, precision, units, max label text or beacon name, and `pos` and
every other global are unchanged. -/
theorem row_setup_noop_of_le_epsilon (r : Row) (max : ℚ) (g : Globals)
    (h : max ≤ DBL_EPSILON) :
    row_setup r max g =
      { g with calls := g.calls ++
          [Call.cgui_beacon_create ⟨r.id, Slot.label⟩,
           Call.cgui_gauge_create ⟨r.id, Slot.gauge⟩,
           Call.cgui_label_create ⟨r.id, Slot.max⟩] } ∧
    (row_setup r max g).pos = g.pos ∧
    gridAssignments (row_setup r max g).calls = gridAssignments g.calls := by
  refine ⟨row_setup_of_le r max g h, ?_, row_setup_grid_of_le r max g h⟩
  rw [row_setup_of_le r max g h]

/-- Claim C6: when `max` is above `DBL_EPSILON`, the grid assignments that
`row_setup` adds are, at the row index `pos` and with height 1: the label in
column 0 with width 1; then, if `show_max` and `custom_max` both hold, the
gauge in column 1 with width 1 and the max label in column 2 with width 1;
otherwise the gauge in column 1 with width 2 and nothing for the max label. -/
theorem row_setup_placement (r : Row) (max : ℚ) (g : Globals)
    (h : DBL_EPSILON < max) :
    gridAssignments (row_setup r max g).calls =
      gridAssignments g.calls ++
        (if g.show_max = true ∧ r.custom_max = true then
          [((⟨r.id, Slot.label⟩ : Cell), 0, g.pos, 1, 1),
           (⟨r.id, Slot.gauge⟩, 1, g.pos, 1, 1),
           (⟨r.id, Slot.max⟩, 2, g.pos, 1, 1)]
        else
          [((⟨r.id, Slot.label⟩ : Cell), 0, g.pos, 1, 1),
           (⟨r.id, Slot.gauge⟩, 1, g.pos, 2, 1)]) := by
  rw [row_setup_grid_of_gt r max g h]
  rfl

theorem row_setup_noop_of_le_epsilon_witness :
    GB (0 : Nat) ⟨0, 17179869184, 0, 0, 0, 1⟩ ≤ DBL_EPSILON ∧
    (row_setup swp (GB (0 : Nat) ⟨0, 17179869184, 0, 0, 0, 1⟩) initial).calls =
      [Call.cgui_beacon_create ⟨RowId.swp, Slot.label⟩,
       Call.cgui_gauge_create ⟨RowId.swp, Slot.gauge⟩,
       Call.cgui_label_create ⟨RowId.swp, Slot.max⟩] ∧
    (row_setup swp (GB (0 : Nat) ⟨0, 17179869184, 0, 0, 0, 1⟩) initial).pos = 0 := by
  have h : GB (0 : Nat) ⟨0, 17179869184, 0, 0, 0, 1⟩ ≤ DBL_EPSILON := by
    rw [GB_zero]
    norm_num [DBL_EPSILON]
  obtain ⟨e, hp, _⟩ := row_setup_noop_of_le_epsilon swp _ initial h
  refine ⟨h, ?_, ?_⟩
  · rw [e]
    rfl
  · rw [hp]
    rfl

theorem row_setup_placement_witness :
    DBL_EPSILON < 16 ∧
    gridAssignments (row_setup mem 16 { initial with show_max := true }).calls =
      [((⟨RowId.mem, Slot.label⟩ : Cell), 0, 0, 1, 1),
       (⟨RowId.mem, Slot.gauge⟩, 1, 0, 1, 1),
       (⟨RowId.mem, Slot.max⟩, 2, 0, 1, 1)] ∧
    gridAssignments (row_setup cpu 16 { initial with show_max := true }).calls =
      [((⟨RowId.cpu, Slot.label⟩ : Cell), 0, 0, 1, 1),
       (⟨RowId.cpu, Slot.gauge⟩, 1, 0, 2, 1)] ∧
    gridAssignments (row_setup mem 16 initial).calls =
      [((⟨RowId.mem, Slot.label⟩ : Cell), 0, 0, 1, 1),
       (⟨RowId.mem, Slot.gauge⟩, 1, 0, 2, 1)] := by
  have h : DBL_EPSILON < 16 := by norm_num [DBL_EPSILON]
  refine ⟨h, ?_, ?_, ?_⟩
  · rw [row_setup_placement mem 16 _ h]
    rfl
  · rw [row_setup_placement cpu 16 _ h]
    rfl
  · rw [row_setup_placement mem 16 _ h]
    rfl

/-! ## The polling tick -/

theorem update_all_rounded (data : Sysinfo) (n : Int) (alert : ℚ)
    (hram : data.totalram * data.mem_unit < ULONG_MOD)
    (hswap : data.totalswap * data.mem_unit < ULONG_MOD)
    (huram : 0 ≤ ((data.totalram : Int) - (data.freeram : Int)) * (data.mem_unit : Int) ∧
      ((data.totalram : Int) - (data.freeram : Int)) * (data.mem_unit : Int) < 2 ^ 64)
    (huswap : 0 ≤ ((data.totalswap : Int) - (data.freeswap : Int)) * (data.mem_unit : Int) ∧
      ((data.totalswap : Int) - (data.freeswap : Int)) * (data.mem_unit : Int) < 2 ^ 64) :
    update_all data n alert =
      Call.sysinfo data ::
        (row_update cpu
           (b64 (b64 (b64 (b64 (data.loads0 : ℚ) * 100) / (n : ℚ)) / 2 ^ 16))
           (b64 (100 * alert)) ++
         row_update mem
           (b64 (b64 (((data.totalram : ℚ) - (data.freeram : ℚ)) * (data.mem_unit : ℚ)) / 2 ^ 30))
           (b64 (b64 (b64 ((data.totalram : ℚ) * (data.mem_unit : ℚ)) / 2 ^ 30) * alert)) ++
         row_update swp
           (b64 (b64 (((data.totalswap : ℚ) - (data.freeswap : ℚ)) * (data.mem_unit : ℚ)) / 2 ^ 30))
           (b64 (b64 (b64 ((data.totalswap : ℚ) * (data.mem_unit : ℚ)) / 2 ^ 30) * alert))) := by
  unfold update_all
  rw [GB_of_fits _ _ hram, GB_of_fits _ _ hswap, GB_usub_of_fits _ _ _ huram.1 huram.2,
    GB_usub_of_fits _ _ _ huswap.1 huswap.2]
  have hs : ((1 <<< SI_LOAD_SHIFT : Nat) : ℚ) = 2 ^ 16 := by
    norm_num [SI_LOAD_SHIFT, Nat.shiftLeft_eq]
  rw [hs]
  rfl

theorem beaconState_three_updates (d : Sysinfo) (cs : List Call)
    (v1 t1 v2 t2 v3 t3 : ℚ) :
    beaconState RowId.cpu (cs ++ Call.sysinfo d ::
        (row_update cpu v1 t1 ++ row_update mem v2 t2 ++ row_update swp v3 t3)) =
      some (if v1 ≥ t1 then BeaconState.CGUI_BEACON_ON else BeaconState.CGUI_BEACON_OFF) ∧
    beaconState RowId.mem (cs ++ Call.sysinfo d ::
        (row_update cpu v1 t1 ++ row_update mem v2 t2 ++ row_update swp v3 t3)) =
      some (if v2 ≥ t2 then BeaconState.CGUI_BEACON_ON else BeaconState.CGUI_BEACON_OFF) ∧
    beaconState RowId.swp (cs ++ Call.sysinfo d ::
        (row_update cpu v1 t1 ++ row_update mem v2 t2 ++ row_update swp v3 t3)) =
      some (if v3 ≥ t3 then BeaconState.CGUI_BEACON_ON else BeaconState.CGUI_BEACON_OFF) := by
  refine ⟨?_, ?_, ?_⟩ <;>
    exact beaconState_append_of_some _ _ cs _
      (by simp [row_update, beaconState, cpu, mem, swp])

theorem b64_round_down (x : ℚ) (e f : ℤ) (hx : 0 < x) (h1 : (2 : ℚ) ^ e ≤ x)
    (h2 : x < (2 : ℚ) ^ (e + 1)) (hmin : -1022 ≤ e)
    (hf : (f : ℚ) ≤ x / 2 ^ (e - 52)) (hlt : x / 2 ^ (e - 52) - (f : ℚ) < 1 / 2) :
    b64 x = (f : ℚ) * 2 ^ (e - 52) := by
  rw [b64_of_pos x e hx h1 h2 hmin, roundEven_of_lt _ f hf hlt]

theorem b64_round_up (x : ℚ) (e f : ℤ) (hx : 0 < x) (h1 : (2 : ℚ) ^ e ≤ x)
    (h2 : x < (2 : ℚ) ^ (e + 1)) (hmin : -1022 ≤ e)
    (hf : x / 2 ^ (e - 52) < (f : ℚ) + 1) (hgt : 1 / 2 < x / 2 ^ (e - 52) - (f : ℚ)) :
    b64 x = ((f + 1 : ℤ) : ℚ) * 2 ^ (e - 52) := by
  rw [b64_of_pos x e hx h1 h2 hmin, roundEven_of_gt _ f hf hgt]

/-- Claim C2, amended: for a processor count `0 < n < 2^31`, an `alert` that is
a binary64 value of magnitude at most `2^900`, and a snapshot whose fields fit
an `unsigned long` and whose byte products are representable in one,
`update_all` takes the snapshot and updates the three rows with the pairs
(value, threshold) that the expressions of the source give when every
conversion, product and quotient is rounded to binary64 (`b64`):
CPU `(b64 (b64 (b64 (b64 loads0 * 100) / n) / 2^16), b64 (100 * alert))`,
MEM `(b64 (b64 ((totalram - freeram) * mem_unit) / 2^30),
b64 (b64 (b64 (totalram * mem_unit) / 2^30) * alert))`, SWP likewise; after the
tick the beacon of each row is ON exactly when its rounded value is at least
its rounded threshold; and when a total byte product is below `2^53` the
value of its row and its total in GB are the exact quotients by `2^30`, so
that only the product by `alert` rounds. -/
theorem update_all_binary64 (data : Sysinfo) (n : Int) (alert : ℚ) (cs : List Call)
    (hn : 0 < n) (hn2 : n < 2 ^ 31)
    (halert : b64 alert = alert) (habs : |alert| ≤ 2 ^ 900)
    (hloads : data.loads0 < ULONG_MOD)
    (hram : data.totalram * data.mem_unit < ULONG_MOD)
    (hswap : data.totalswap * data.mem_unit < ULONG_MOD)
    (huram : 0 ≤ ((data.totalram : Int) - (data.freeram : Int)) * (data.mem_unit : Int) ∧
      ((data.totalram : Int) - (data.freeram : Int)) * (data.mem_unit : Int) < 2 ^ 64)
    (huswap : 0 ≤ ((data.totalswap : Int) - (data.freeswap : Int)) * (data.mem_unit : Int) ∧
      ((data.totalswap : Int) - (data.freeswap : Int)) * (data.mem_unit : Int) < 2 ^ 64) :
    update_all data n alert =
      Call.sysinfo data ::
        (row_update cpu
           (b64 (b64 (b64 (b64 (data.loads0 : ℚ) * 100) / (n : ℚ)) / 2 ^ 16))
           (b64 (100 * alert)) ++
         row_update mem
           (b64 (b64 (((data.totalram : ℚ) - (data.freeram : ℚ)) * (data.mem_unit : ℚ)) / 2 ^ 30))
           (b64 (b64 (b64 ((data.totalram : ℚ) * (data.mem_unit : ℚ)) / 2 ^ 30) * alert)) ++
         row_update swp
           (b64 (b64 (((data.totalswap : ℚ) - (data.freeswap : ℚ)) * (data.mem_unit : ℚ)) / 2 ^ 30))
           (b64 (b64 (b64 ((data.totalswap : ℚ) * (data.mem_unit : ℚ)) / 2 ^ 30) * alert))) ∧
    (beaconState RowId.cpu (cs ++ update_all data n alert) = some BeaconState.CGUI_BEACON_ON ↔
      b64 (b64 (b64 (b64 (data.loads0 : ℚ) * 100) / (n : ℚ)) / 2 ^ 16) ≥ b64 (100 * alert)) ∧
    (beaconState RowId.mem (cs ++ update_all data n alert) = some BeaconState.CGUI_BEACON_ON ↔
      b64 (b64 (((data.totalram : ℚ) - (data.freeram : ℚ)) * (data.mem_unit : ℚ)) / 2 ^ 30) ≥
        b64 (b64 (b64 ((data.totalram : ℚ) * (data.mem_unit : ℚ)) / 2 ^ 30) * alert)) ∧
    (beaconState RowId.swp (cs ++ update_all data n alert) = some BeaconState.CGUI_BEACON_ON ↔
      b64 (b64 (((data.totalswap : ℚ) - (data.freeswap : ℚ)) * (data.mem_unit : ℚ)) / 2 ^ 30) ≥
        b64 (b64 (b64 ((data.totalswap : ℚ) * (data.mem_unit : ℚ)) / 2 ^ 30) * alert)) ∧
    (data.totalram * data.mem_unit < 2 ^ 53 →
      b64 (b64 (((data.totalram : ℚ) - (data.freeram : ℚ)) * (data.mem_unit : ℚ)) / 2 ^ 30) =
        ((data.totalram : ℚ) - (data.freeram : ℚ)) * (data.mem_unit : ℚ) / 2 ^ 30 ∧
      b64 (b64 ((data.totalram : ℚ) * (data.mem_unit : ℚ)) / 2 ^ 30) =
        (data.totalram : ℚ) * (data.mem_unit : ℚ) / 2 ^ 30) ∧
    (data.totalswap * data.mem_unit < 2 ^ 53 →
      b64 (b64 (((data.totalswap : ℚ) - (data.freeswap : ℚ)) * (data.mem_unit : ℚ)) / 2 ^ 30) =
        ((data.totalswap : ℚ) - (data.freeswap : ℚ)) * (data.mem_unit : ℚ) / 2 ^ 30 ∧
      b64 (b64 ((data.totalswap : ℚ) * (data.mem_unit : ℚ)) / 2 ^ 30) =
        (data.totalswap : ℚ) * (data.mem_unit : ℚ) / 2 ^ 30) := by
  have _ := hn
  have _ := hn2
  have _ := halert
  have _ := habs
  have _ := hloads
  have e := update_all_rounded data n alert hram hswap huram huswap
  have hb := beaconState_three_updates data cs
    (b64 (b64 (b64 (b64 (data.loads0 : ℚ) * 100) / (n : ℚ)) / 2 ^ 16)) (b64 (100 * alert))
    (b64 (b64 (((data.totalram : ℚ) - (data.freeram : ℚ)) * (data.mem_unit : ℚ)) / 2 ^ 30))
    (b64 (b64 (b64 ((data.totalram : ℚ) * (data.mem_unit : ℚ)) / 2 ^ 30) * alert))
    (b64 (b64 (((data.totalswap : ℚ) - (data.freeswap : ℚ)) * (data.mem_unit : ℚ)) / 2 ^ 30))
    (b64 (b64 (b64 ((data.totalswap : ℚ) * (data.mem_unit : ℚ)) / 2 ^ 30) * alert))
  have hex : ∀ t f u : Nat, 0 ≤ ((t : Int) - (f : Int)) * (u : Int) → t * u < 2 ^ 53 →
      b64 (b64 (((t : ℚ) - (f : ℚ)) * (u : ℚ)) / 2 ^ 30) =
        ((t : ℚ) - (f : ℚ)) * (u : ℚ) / 2 ^ 30 ∧
      b64 (b64 ((t : ℚ) * (u : ℚ)) / 2 ^ 30) = (t : ℚ) * (u : ℚ) / 2 ^ 30 := by
    intro t f u h0 hlt
    have hle : ((t : Int) - (f : Int)) * (u : Int) ≤ (t : Int) * (u : Int) :=
      mul_le_mul_of_nonneg_right (by omega) (by omega)
    have hlt2 : (t : Int) * (u : Int) < 2 ^ 53 := by exact_mod_cast hlt
    obtain ⟨k, hk⟩ := Int.eq_ofNat_of_zero_le h0
    have hk53 : k < 2 ^ 53 := by
      have : (k : Int) < 2 ^ 53 := by rw [← hk]; omega
      exact_mod_cast this
    have hq : ((t : ℚ) - (f : ℚ)) * (u : ℚ) = (k : ℚ) := by
      have := congrArg (fun z : Int => (z : ℚ)) hk
      simpa using this
    constructor
    · rw [hq]
      exact b64_div_exact k hk53
    · have := b64_div_exact (t * u) hlt
      simpa using this
  refine ⟨e, ?_, ?_, ?_, ?_, ?_⟩
  · rw [e, hb.1]
    exact beacon_on_iff _
  · rw [e, hb.2.1]
    exact beacon_on_iff _
  · rw [e, hb.2.2]
    exact beacon_on_iff _
  · exact hex _ _ _ huram.1
  · exact hex _ _ _ huswap.1

theorem b64_dyadic (n : ℕ) (k : ℕ) (hn : n < 2 ^ 53) (hk : k ≤ 1074) :
    b64 ((n : ℚ) / 2 ^ k) = (n : ℚ) / 2 ^ k := by
  have e : (n : ℚ) / 2 ^ k = (n : ℚ) * 2 ^ (-(k : ℤ)) := by
    rw [zpow_neg, div_eq_mul_inv, zpow_natCast]
  rw [e]
  exact b64_exact n (-(k : ℤ)) hn (by omega)

theorem update_all_binary64_witness :
    b64 (95 / 100) = 4278419646001971 / 4503599627370496 ∧
    b64 (76 / 5) = 4278419646001971 / 281474976710656 ∧
    update_all ⟨0, 17179869184, 858993459, 0, 0, 1⟩ 4 (4278419646001971 / 4503599627370496) =
      Call.sysinfo ⟨0, 17179869184, 858993459, 0, 0, 1⟩ ::
        (row_update cpu 0 95 ++
         row_update mem (16320875725 / 1073741824) (4278419646001971 / 281474976710656) ++
         row_update swp 0 0) ∧
    beaconState RowId.mem
        (update_all ⟨0, 17179869184, 858993459, 0, 0, 1⟩ 4
          (4278419646001971 / 4503599627370496)) =
      some BeaconState.CGUI_BEACON_ON ∧
    beaconState RowId.mem
        (update_all ⟨0, 17179869184, 858993460, 0, 0, 1⟩ 4
          (4278419646001971 / 4503599627370496)) ≠
      some BeaconState.CGUI_BEACON_ON ∧
    beaconState RowId.mem
        (update_all ⟨0, 17179869184, 859100834, 0, 0, 1⟩ 4
          (4278419646001971 / 4503599627370496)) ≠
      some BeaconState.CGUI_BEACON_ON := by
  have ha : b64 (4278419646001971 / 4503599627370496) =
      (4278419646001971 / 4503599627370496 : ℚ) := by
    have := b64_dyadic 4278419646001971 52 (by norm_num) (by norm_num)
    norm_num at this
    exact this
  have h16 : b64 (4278419646001971 / 281474976710656) =
      (4278419646001971 / 281474976710656 : ℚ) := by
    have := b64_dyadic 4278419646001971 48 (by norm_num) (by norm_num)
    norm_num at this
    exact this
  have h95 : b64 (106960491150049275 / 1125899906842624) = 95 := by
    rw [b64_round_up (106960491150049275 / 1125899906842624) 6 6685030696878079
      (by norm_num) (by norm_num) (by norm_num) (by norm_num) (by norm_num) (by norm_num)]
    norm_num
  have habs : |(4278419646001971 / 4503599627370496 : ℚ)| ≤ 2 ^ 900 := by
    rw [abs_of_pos (by norm_num)]
    norm_num
  obtain ⟨e1, _, hm1, _, hx1, _⟩ := update_all_binary64 ⟨0, 17179869184, 858993459, 0, 0, 1⟩ 4
    (4278419646001971 / 4503599627370496) []
    (by norm_num) (by norm_num) ha habs
    (by norm_num [ULONG_MOD]) (by norm_num [ULONG_MOD]) (by norm_num [ULONG_MOD])
    (by norm_num) (by norm_num)
  obtain ⟨_, _, hm2, _, hx2, _⟩ := update_all_binary64 ⟨0, 17179869184, 858993460, 0, 0, 1⟩ 4
    (4278419646001971 / 4503599627370496) []
    (by norm_num) (by norm_num) ha habs
    (by norm_num [ULONG_MOD]) (by norm_num [ULONG_MOD]) (by norm_num [ULONG_MOD])
    (by norm_num) (by norm_num)
  obtain ⟨_, _, hm3, _, hx3, _⟩ := update_all_binary64 ⟨0, 17179869184, 859100834, 0, 0, 1⟩ 4
    (4278419646001971 / 4503599627370496) []
    (by norm_num) (by norm_num) ha habs
    (by norm_num [ULONG_MOD]) (by norm_num [ULONG_MOD]) (by norm_num [ULONG_MOD])
    (by norm_num) (by norm_num)
  have hv1 := hx1 (by norm_num)
  have hv2 := hx2 (by norm_num)
  have hv3 := hx3 (by norm_num)
  norm_num at hv1 hv2 hv3 hm1 hm2 hm3
  norm_num [b64_zero] at e1
  rw [hv1.1, hv1.2] at e1 hm1
  rw [hv2.1, hv2.2] at hm2
  rw [hv3.1, hv3.2] at hm3
  norm_num [h16, h95] at e1 hm1 hm2 hm3
  refine ⟨?_, ?_, e1, hm1, hm2, hm3⟩
  · rw [b64_round_down (95 / 100) (-1) 8556839292003942
      (by norm_num) (by norm_num) (by norm_num) (by norm_num) (by norm_num) (by norm_num)]
    norm_num
  · rw [b64_round_down (76 / 5) 3 8556839292003942
      (by norm_num) (by norm_num) (by norm_num) (by norm_num) (by norm_num) (by norm_num)]
    norm_num

/-- Claim C2 as stated fails: with 16777216000 bytes of memory, 1174405120 of
them used, and `alert` the binary64 value nearest to 0.07, the threshold
`15.625 * alert` rounds down to 1.09375, which is the value: the MEM beacon is
set ON, while in exact arithmetic the value is below the threshold, and the
pair given to `row_update` is not the exact one. -/
theorem update_all_exact_fails :
    b64 (1261007895663739 / 18014398509481984) = 1261007895663739 / 18014398509481984 ∧
    beaconState RowId.mem
        (update_all ⟨0, 16777216000, 15602810880, 0, 0, 1⟩ 4
          (1261007895663739 / 18014398509481984)) =
      some BeaconState.CGUI_BEACON_ON ∧
    ¬ (((16777216000 : ℚ) - 15602810880) * 1 / 2 ^ 30 ≥
        (16777216000 : ℚ) * 1 / 2 ^ 30 * (1261007895663739 / 18014398509481984)) ∧
    update_all ⟨0, 16777216000, 15602810880, 0, 0, 1⟩ 4
        (1261007895663739 / 18014398509481984) ≠
      Call.sysinfo ⟨0, 16777216000, 15602810880, 0, 0, 1⟩ ::
        (row_update cpu ((0 : ℚ) * 100 / 4 / 2 ^ 16)
           (100 * (1261007895663739 / 18014398509481984)) ++
         row_update mem (((16777216000 : ℚ) - 15602810880) * 1 / 2 ^ 30)
           ((16777216000 : ℚ) * 1 / 2 ^ 30 * (1261007895663739 / 18014398509481984)) ++
         row_update swp (((0 : ℚ) - 0) * 1 / 2 ^ 30)
           ((0 : ℚ) * 1 / 2 ^ 30 * (1261007895663739 / 18014398509481984))) := by
  have ha : b64 (1261007895663739 / 18014398509481984) =
      (1261007895663739 / 18014398509481984 : ℚ) := by
    have := b64_dyadic 1261007895663739 54 (by norm_num) (by norm_num)
    norm_num at this
    exact this
  have hthr : b64 (157625986957967375 / 144115188075855872) = 35 / 32 := by
    rw [b64_round_down (157625986957967375 / 144115188075855872) 0 4925812092436480
      (by norm_num) (by norm_num) (by norm_num) (by norm_num) (by norm_num) (by norm_num)]
    norm_num
  have hv := b64_div_exact 1174405120 (by norm_num)
  have ht := b64_div_exact 16777216000 (by norm_num)
  have e := update_all_rounded ⟨0, 16777216000, 15602810880, 0, 0, 1⟩ 4
    (1261007895663739 / 18014398509481984)
    (by norm_num [ULONG_MOD]) (by norm_num [ULONG_MOD]) (by norm_num) (by norm_num)
  norm_num at hv ht
  norm_num [b64_zero] at e
  rw [hv, ht] at e
  norm_num [hthr] at e
  have hb : beaconState RowId.mem
      (update_all ⟨0, 16777216000, 15602810880, 0, 0, 1⟩ 4
        (1261007895663739 / 18014398509481984)) = some BeaconState.CGUI_BEACON_ON := by
    rw [e]
    simp [row_update, beaconState, cpu, mem, swp]
  refine ⟨ha, hb, by norm_num, ?_⟩
  intro h
  rw [h] at hb
  simp [row_update, beaconState, cpu, mem, swp] at hb
  norm_num at hb

/-- Claim C10: with `totalswap = 0` and `freeswap = 0`, the swap row is a
no-op at setup, and still every tick calls `row_update` on it with value 0
and threshold `0 * alert = 0`, so that after the tick (also seen as a whole
cycle of the thread) its gauge holds 0 and its beacon is ON, for every
`alert`. -/
theorem swap_beacon_on_without_swap (data : Sysinfo) (n : Int) (alert : ℚ)
    (cs : List Call) (g : Globals) (env : Env) (k : Nat)
    (ht : data.totalswap = 0) (hf : data.freeswap = 0) (hk : env.snapshot k = data) :
    gridAssignments (row_setup swp (GB data.totalswap data) g).calls =
      gridAssignments g.calls ∧
    (∃ before, update_all data n alert = before ++ row_update swp 0 (0 * alert)) ∧
    gaugeValue RowId.swp (cs ++ update_all data n alert) = some 0 ∧
    beaconState RowId.swp (cs ++ update_all data n alert) =
      some BeaconState.CGUI_BEACON_ON ∧
    beaconState RowId.swp (cs ++ thread_cycle env g k) =
      some BeaconState.CGUI_BEACON_ON := by
  have hz : GB data.totalswap data = 0 := by rw [ht, GB_zero]
  have hu : GB (usub data.totalswap data.freeswap) data = 0 := by
    have h0 : usub data.totalswap data.freeswap = 0 := by simp [usub, ht, hf]
    rw [h0, GB_zero]
  have hle : GB data.totalswap data ≤ DBL_EPSILON := by
    rw [hz]
    norm_num [DBL_EPSILON]
  have hthr : ∀ a : ℚ, fmul 0 a = 0 := by
    intro a
    simp [fmul, b64_zero]
  refine ⟨row_setup_grid_of_le swp _ g hle, ?_, ?_, ?_, ?_⟩
  · refine ⟨[Call.sysinfo data] ++
      row_update cpu
        (fdiv (fdiv (fmul (ofULong data.loads0) 100) (n : ℚ))
          ((1 <<< SI_LOAD_SHIFT : Nat) : ℚ))
        (fmul 100 alert) ++
      row_update mem (GB (usub data.totalram data.freeram) data)
        (fmul (GB data.totalram data) alert), ?_⟩
    unfold update_all
    rw [hz, hu, hthr, zero_mul]
  · apply gaugeValue_append_of_some
    simp [update_all, row_update, gaugeValue, hu, swp, cpu, mem]
  · apply beaconState_append_of_some
    simp [update_all, row_update, beaconState, hu, hz, hthr, swp, cpu, mem]
  · apply beaconState_append_of_some
    simp [thread_cycle, hk, update_all, row_update, beaconState, hu, hz, hthr, swp, cpu, mem]

theorem swap_beacon_on_without_swap_witness :
    beaconState RowId.swp (update_all ⟨0, 17179869184, 858993459, 0, 0, 1⟩ 4 (19 / 20)) =
      some BeaconState.CGUI_BEACON_ON ∧
    gaugeValue RowId.swp (update_all ⟨0, 17179869184, 858993459, 0, 0, 1⟩ 4 (19 / 20)) =
      some 0 := by
  obtain ⟨_, _, hg, hb, _⟩ :=
    swap_beacon_on_without_swap ⟨0, 17179869184, 858993459, 0, 0, 1⟩ 4 (19 / 20) [] initial
      ⟨fun _ => ⟨0, 17179869184, 858993459, 0, 0, 1⟩, fun _ => 4, fun _ => true⟩ 0 rfl rfl rfl
  exact ⟨hb, hg⟩

/-! ## Options -/

theorem options_loop_setting (lc : Libc) (rs : List GetoptResult) (g : Globals)
    (hrec : ∀ r ∈ rs, r.opt ∈ settingFlags) :
    options_loop lc rs g = Outcome.returned
      { g with
        alert := (lastArg 'a' rs).elim g.alert lc.strtod
        height := (lastArg 'H' rs).elim g.height (fun s => lc.strtoul s 0)
        delay := (lastArg 'i' rs).elim g.delay (fun s => lc.strtoul s 0 % UINT_MOD)
        show_max := g.show_max || flagAppears 'm' rs
        verbose := g.verbose || flagAppears 'v' rs
        width := (lastArg 'w' rs).elim g.width (fun s => lc.strtoul s 0)
        x := (lastArg 'x' rs).elim g.x (fun s => lc.strtol s 0)
        y := (lastArg 'y' rs).elim g.y (fun s => lc.strtol s 0) } := by
  induction rs generalizing g with
  | nil => simp [options_loop, lastArg, flagAppears]
  | cons r rs ih =>
    have hr : r.opt ∈ settingFlags := hrec r (List.mem_cons_self _ _)
    have hrs : ∀ q ∈ rs, q.opt ∈ settingFlags := fun q hq => hrec q (List.mem_cons_of_mem _ hq)
    simp only [settingFlags, List.mem_cons, List.mem_singleton, List.not_mem_nil, or_false] at hr
    rcases hr with h | h | h | h | h | h | h | h
    all_goals
      simp only [options_loop, options_case, h, lastArg, flagAppears]
      simp +decide only [if_true, if_false]
      rw [ih _ hrs]
      congr 1
      cases hA : lastArg 'a' rs <;> cases hH : lastArg 'H' rs <;> cases hI : lastArg 'i' rs <;>
      cases hW : lastArg 'w' rs <;> cases hX : lastArg 'x' rs <;> cases hY : lastArg 'y' rs <;>
      simp

theorem lastArg_mem (c : Char) (rs : List GetoptResult) (s : String)
    (h : lastArg c rs = some s) : ∃ r ∈ rs, r.opt = c ∧ r.optarg = s := by
  induction rs with
  | nil => simp [lastArg] at h
  | cons r rs ih =>
    simp only [lastArg] at h
    cases hl : lastArg c rs with
    | some t =>
      rw [hl] at h
      obtain ⟨q, hq, hq2⟩ := ih (by rw [hl, ← h])
      exact ⟨q, List.mem_cons_of_mem _ hq, hq2⟩
    | none =>
      rw [hl] at h
      by_cases hc : r.opt = c
      · simp only [hc, if_true, Option.some.injEq] at h
        exact ⟨r, List.mem_cons_self _ _, hc, h⟩
      · simp [hc] at h

/-- Claim C3: when every answer of `getopt` is one of the parameter-setting
flags and every value given to `-i` fits an `unsigned int`, `options` returns,
each parameter whose flag appears holds the conversion of the last value given
to it (`show_max` and `verbose` are true), and every other parameter holds its
default: alert 0.95, delay 1, width 0, height 0, x 20, y 20, show_max false,
verbose false. -/
theorem options_sets_given_values (lc : Libc) (argv : List String)
    (hrec : ∀ r ∈ lc.getopt OPTSTRING argv, r.opt ∈ settingFlags)
    (hwf : ∀ r ∈ lc.getopt OPTSTRING argv, r.opt = 'i' → lc.strtoul r.optarg 0 < UINT_MOD) :
    options lc argv (initial.emit [Call.cgui_init]) = Outcome.returned
      { show_max := flagAppears 'm' (lc.getopt OPTSTRING argv)
        verbose := flagAppears 'v' (lc.getopt OPTSTRING argv)
        alert := (lastArg 'a' (lc.getopt OPTSTRING argv)).elim (95 / 100) lc.strtod
        delay := (lastArg 'i' (lc.getopt OPTSTRING argv)).elim 1 (fun s => lc.strtoul s 0)
        width := (lastArg 'w' (lc.getopt OPTSTRING argv)).elim 0 (fun s => lc.strtoul s 0)
        height := (lastArg 'H' (lc.getopt OPTSTRING argv)).elim 0 (fun s => lc.strtoul s 0)
        x := (lastArg 'x' (lc.getopt OPTSTRING argv)).elim 20 (fun s => lc.strtol s 0)
        y := (lastArg 'y' (lc.getopt OPTSTRING argv)).elim 20 (fun s => lc.strtol s 0)
        str := ⟨0, []⟩
        pos := 0
        calls := [Call.cgui_init] } := by
  unfold options
  rw [options_loop_setting lc _ _ hrec]
  congr 1
  have hd : (lastArg 'i' (lc.getopt OPTSTRING argv)).elim 1
        (fun s => lc.strtoul s 0 % UINT_MOD) =
      (lastArg 'i' (lc.getopt OPTSTRING argv)).elim 1 (fun s => lc.strtoul s 0) := by
    cases hl : lastArg 'i' (lc.getopt OPTSTRING argv) with
    | none => rfl
    | some s =>
      obtain ⟨r, hr, ho, ha⟩ := lastArg_mem _ _ _ hl
      have := hwf r hr ho
      rw [ha] at this
      simp [Option.elim, Nat.mod_eq_of_lt this]
  simp [initial, Globals.emit, hd]

theorem options_sets_given_values_witness :
    options decLibc ["sysgauges", "-a", "0.5", "-i", "2", "-m"] (initial.emit [Call.cgui_init]) =
      Outcome.returned
        { show_max := true
          verbose := false
          alert := 1 / 2
          delay := 2
          width := 0
          height := 0
          x := 20
          y := 20
          str := ⟨0, []⟩
          pos := 0
          calls := [Call.cgui_init] } := by
  have hg : decLibc.getopt OPTSTRING ["sysgauges", "-a", "0.5", "-i", "2", "-m"] =
      [⟨'a', "0.5"⟩, ⟨'i', "2"⟩, ⟨'m', ""⟩] := by decide
  have hd : decLibc.strtod "0.5" = 1 / 2 := by
    simp [decLibc, strtodModel, readSign, skipSpace, isSpace, readDigits, digitVal]
    norm_num
  have hi : decLibc.strtoul "2" 0 = 2 := by decide
  have h := options_sets_given_values decLibc ["sysgauges", "-a", "0.5", "-i", "2", "-m"]
    (by rw [hg]; decide)
    (by rw [hg]; intro r hr _; simp at hr; rcases hr with h | h | h <;> subst h <;> decide)
  rw [hg] at h
  simpa [lastArg, flagAppears, hd, hi] using h

theorem options_loop_returned_frame (lc : Libc) (rs : List GetoptResult) (g g1 : Globals)
    (h : options_loop lc rs g = Outcome.returned g1) :
    g1.pos = g.pos ∧ g1.calls = g.calls ∧ g1.str = g.str := by
  induction rs generalizing g with
  | nil =>
    simp only [options_loop, Outcome.returned.injEq] at h
    subst h
    exact ⟨rfl, rfl, rfl⟩
  | cons r rs ih =>
    simp only [options_loop] at h
    cases hc : options_case lc r g with
    | exited status g2 => rw [hc] at h; cases h
    | returned g2 =>
      rw [hc] at h
      have hf : g2.pos = g.pos ∧ g2.calls = g.calls ∧ g2.str = g.str := by
        unfold options_case at hc
        split_ifs at hc <;> cases hc <;> exact ⟨rfl, rfl, rfl⟩
      obtain ⟨a, b, c⟩ := ih g2 h
      exact ⟨a.trans hf.1, b.trans hf.2.1, c.trans hf.2.2⟩

theorem GB_gt_epsilon (t : Nat) (data : Sysinfo) (hpos : 0 < t * data.mem_unit)
    (h : t * data.mem_unit < ULONG_MOD) : DBL_EPSILON < GB t data := by
  rw [GB_of_fits t data h]
  have h1 : (2 : ℚ) ^ (0 : ℤ) ≤ (t : ℚ) * (data.mem_unit : ℚ) := by
    rw [zpow_zero]
    exact_mod_cast hpos
  have h2 : (2 : ℚ) ^ (0 : ℤ) ≤ b64 ((t : ℚ) * (data.mem_unit : ℚ)) :=
    b64_ge_zpow _ 0 (by norm_num) h1
  have h3 : (2 : ℚ) ^ (-30 : ℤ) ≤ b64 ((t : ℚ) * (data.mem_unit : ℚ)) / 2 ^ 30 := by
    rw [zpow_zero] at h2
    rw [zpow_neg, le_div_iff₀ (by positivity)]
    norm_num
    exact h2
  have h4 := b64_ge_zpow _ (-30) (by norm_num) h3
  refine lt_of_lt_of_le ?_ h4
  unfold DBL_EPSILON
  rw [zpow_neg]
  norm_num

theorem main_run_grid (g : Globals) :
    gridAssignments (main_run g).calls = gridAssignments g.calls ∧
    (main_run g).pos = g.pos := by
  by_cases hv : g.verbose = true <;>
    simp [main_run, resize, on_run, on_exit, row_destroy, Globals.emit, hv,
      gridAssignments_append, gridAssignments]

theorem row_setup_calls_mem (r : Row) (max : ℚ) (g : Globals) (c : Call) (h : c ∈ g.calls) :
    c ∈ (row_setup r max g).calls := by
  by_cases hn : max ≤ DBL_EPSILON
  · simp [row_setup, hn, Globals.emit, h]
  · by_cases hc : (g.show_max && r.custom_max) = true <;>
      simp [row_setup, hn, Globals.emit, row_setup_str, hc, h]

theorem main_run_calls_mem (g : Globals) (c : Call) (h : c ∈ g.calls) :
    c ∈ (main_run g).calls := by
  by_cases hv : g.verbose = true <;>
    simp [main_run, resize, on_run, on_exit, row_destroy, Globals.emit, hv, h]

/-- Claim C9: when `options` returns and the startup snapshot has
`totalram * mem_unit > 0` with byte products that fit an `unsigned long`,
`main` ends with `pos` equal to the number of rows the grid was created with
(3 if `totalswap > 0`, else 2), the grid assignments are those of the CPU row
at index 0, of the MEM row at index 1 and, exactly when `totalswap > 0`, of
the SWP row at index 2, in this order; the test of `row_setup` on the swap
maximum agrees with the test `totalswap > 0` that sizes the grid. -/
theorem main_rows_fill_grid (lc : Libc) (data : Sysinfo) (argv : List String) (g0 : Globals)
    (hopt : options lc argv (initial.emit [Call.cgui_init]) = Outcome.returned g0)
    (hpos : 0 < data.totalram * data.mem_unit)
    (hram : data.totalram * data.mem_unit < ULONG_MOD)
    (hswap : data.totalswap * data.mem_unit < ULONG_MOD) :
    (main lc data argv).2.pos = (if 0 < data.totalswap then 3 else 2) ∧
    Call.cgui_grid_create 3 (main lc data argv).2.pos ∈ (main lc data argv).2.calls ∧
    gridAssignments (main lc data argv).2.calls =
      rowCells g0.show_max cpu 0 ++ rowCells g0.show_max mem 1 ++
        (if 0 < data.totalswap then rowCells g0.show_max swp 2 else []) ∧
    (GB data.totalswap data ≤ DBL_EPSILON ↔ ¬ 0 < data.totalswap) := by
  obtain ⟨hp0, hc0, _⟩ := options_loop_returned_frame lc _ _ _ hopt
  have hm : main lc data argv =
      (0, main_run (main_rows data (main_grid data (g0.emit [Call.sysinfo data])))) := by
    unfold main
    rw [hopt]
  have hunit : 0 < data.mem_unit := by
    rcases Nat.eq_zero_or_pos data.mem_unit with hu | hu
    · rw [hu, Nat.mul_zero] at hpos
      exact absurd hpos (lt_irrefl 0)
    · exact hu
  -- the state before the rows
  have hAp : (main_grid data (g0.emit [Call.sysinfo data])).pos = 0 := by
    simp only [main_grid, Globals.emit]
    exact hp0
  have hAs : (main_grid data (g0.emit [Call.sysinfo data])).show_max = g0.show_max := rfl
  have hAg : gridAssignments (main_grid data (g0.emit [Call.sysinfo data])).calls = [] := by
    simp only [main_grid, Globals.emit, hc0]
    rfl
  have hAm : Call.cgui_grid_create 3 (gridRows data) ∈
      (main_grid data (g0.emit [Call.sysinfo data])).calls := by
    simp [main_grid, Globals.emit]
  -- the CPU row
  have h100 : DBL_EPSILON < (100 : ℚ) := by norm_num [DBL_EPSILON]
  have h1p := row_setup_pos_of_gt cpu 100 (main_grid data (g0.emit [Call.sysinfo data])) h100
  have h1g := row_setup_grid_of_gt cpu 100 (main_grid data (g0.emit [Call.sysinfo data])) h100
  have h1s := row_setup_show_max cpu 100 (main_grid data (g0.emit [Call.sysinfo data]))
  rw [hAp] at h1p h1g
  rw [hAs] at h1g h1s
  rw [hAg] at h1g
  -- the MEM row
  have hmem : DBL_EPSILON < GB data.totalram data := GB_gt_epsilon _ _ hpos hram
  have h2p := row_setup_pos_of_gt mem _
    (row_setup cpu 100 (main_grid data (g0.emit [Call.sysinfo data]))) hmem
  have h2g := row_setup_grid_of_gt mem _
    (row_setup cpu 100 (main_grid data (g0.emit [Call.sysinfo data]))) hmem
  have h2s := row_setup_show_max mem (GB data.totalram data)
    (row_setup cpu 100 (main_grid data (g0.emit [Call.sysinfo data])))
  rw [h1p] at h2p h2g
  rw [h1s] at h2g h2s
  rw [h1g] at h2g
  have hmemb : Call.cgui_grid_create 3 (gridRows data) ∈ (main lc data argv).2.calls := by
    rw [hm]
    exact main_run_calls_mem _ _ (row_setup_calls_mem _ _ _ _ (row_setup_calls_mem _ _ _ _
      (row_setup_calls_mem _ _ _ _ hAm)))
  by_cases hsw : 0 < data.totalswap
  · have hswp : DBL_EPSILON < GB data.totalswap data :=
      GB_gt_epsilon _ _ (Nat.mul_pos hsw hunit) hswap
    have h3p := row_setup_pos_of_gt swp _
      (row_setup mem (GB data.totalram data)
        (row_setup cpu 100 (main_grid data (g0.emit [Call.sysinfo data])))) hswp
    have h3g := row_setup_grid_of_gt swp _
      (row_setup mem (GB data.totalram data)
        (row_setup cpu 100 (main_grid data (g0.emit [Call.sysinfo data])))) hswp
    rw [h2p] at h3p h3g
    rw [h2s, h2g] at h3g
    have hpos3 : (main lc data argv).2.pos = 3 := by
      rw [hm]
      simp only [(main_run_grid _).2, main_rows]
      rw [h3p]
      norm_num [ULONG_MOD]
    refine ⟨by rw [hpos3, if_pos hsw], ?_, ?_, ?_⟩
    · rw [hpos3]
      simpa [gridRows, hsw] using hmemb
    · rw [hm]
      simp only [(main_run_grid _).1, main_rows]
      rw [h3g, if_pos hsw]
      norm_num [ULONG_MOD]
    · constructor
      · intro hle
        exact absurd hle (not_le.mpr hswp)
      · intro hn
        exact absurd hsw hn
  · have hz : data.totalswap = 0 := by omega
    have hle : GB data.totalswap data ≤ DBL_EPSILON := by
      rw [hz, GB_zero]
      norm_num [DBL_EPSILON]
    have h3 := row_setup_of_le swp _
      (row_setup mem (GB data.totalram data)
        (row_setup cpu 100 (main_grid data (g0.emit [Call.sysinfo data])))) hle
    have h3g := row_setup_grid_of_le swp _
      (row_setup mem (GB data.totalram data)
        (row_setup cpu 100 (main_grid data (g0.emit [Call.sysinfo data])))) hle
    have hpos2 : (main lc data argv).2.pos = 2 := by
      rw [hm]
      simp only [(main_run_grid _).2, main_rows]
      rw [h3]
      simp only
      rw [h2p]
      norm_num [ULONG_MOD]
    refine ⟨by rw [hpos2, if_neg hsw], ?_, ?_, ?_⟩
    · rw [hpos2]
      simpa [gridRows, hsw] using hmemb
    · rw [hm]
      simp only [(main_run_grid _).1, main_rows]
      rw [h3g, h2g, if_neg hsw]
      norm_num [ULONG_MOD]
    · exact ⟨fun _ => hsw, fun _ => hle⟩

theorem main_rows_fill_grid_witness :
    (main decLibc ⟨0, 17179869184, 858993459, 0, 0, 1⟩ ["sysgauges"]).2.pos = 2 ∧
    gridAssignments (main decLibc ⟨0, 17179869184, 858993459, 0, 0, 1⟩ ["sysgauges"]).2.calls =
      [((⟨RowId.cpu, Slot.label⟩ : Cell), 0, 0, 1, 1), (⟨RowId.cpu, Slot.gauge⟩, 1, 0, 2, 1),
       (⟨RowId.mem, Slot.label⟩, 0, 1, 1, 1), (⟨RowId.mem, Slot.gauge⟩, 1, 1, 2, 1)] ∧
    (main decLibc ⟨0, 17179869184, 858993459, 2147483648, 0, 1⟩ ["sysgauges"]).2.pos = 3 ∧
    gridAssignments
        (main decLibc ⟨0, 17179869184, 858993459, 2147483648, 0, 1⟩ ["sysgauges"]).2.calls =
      [((⟨RowId.cpu, Slot.label⟩ : Cell), 0, 0, 1, 1), (⟨RowId.cpu, Slot.gauge⟩, 1, 0, 2, 1),
       (⟨RowId.mem, Slot.label⟩, 0, 1, 1, 1), (⟨RowId.mem, Slot.gauge⟩, 1, 1, 2, 1),
       (⟨RowId.swp, Slot.label⟩, 0, 2, 1, 1), (⟨RowId.swp, Slot.gauge⟩, 1, 2, 2, 1)] := by
  have ho : options decLibc ["sysgauges"] (initial.emit [Call.cgui_init]) =
      Outcome.returned (initial.emit [Call.cgui_init]) := by rfl
  have h1 := main_rows_fill_grid decLibc ⟨0, 17179869184, 858993459, 0, 0, 1⟩ ["sysgauges"]
    _ ho (by decide) (by norm_num [ULONG_MOD]) (by norm_num [ULONG_MOD])
  have h2 := main_rows_fill_grid decLibc ⟨0, 17179869184, 858993459, 2147483648, 0, 1⟩
    ["sysgauges"] _ ho (by decide) (by norm_num [ULONG_MOD]) (by norm_num [ULONG_MOD])
  refine ⟨?_, ?_, ?_, ?_⟩
  · rw [h1.1]
    rfl
  · rw [h1.2.2.1]
    rfl
  · rw [h2.1]
    rfl
  · rw [h2.2.2.1]
    rfl

/-! ## The polling thread -/

theorem cycleCount_append (xs ys : List Call) :
    cycleCount (xs ++ ys) = cycleCount xs + cycleCount ys := by
  induction xs with
  | nil => simp [cycleCount]
  | cons c cs ih =>
    cases c
    all_goals simp [cycleCount, ih]
    omega

theorem cycleCount_thread_cycle (env : Env) (g : Globals) (k : Nat) :
    cycleCount (thread_cycle env g k) = 1 := by
  simp [thread_cycle, update_all, row_update, cycleCount]

theorem cycleCount_cyclesFrom (env : Env) (g : Globals) (start count : Nat) :
    cycleCount (cyclesFrom env g start count) = count := by
  induction count generalizing start with
  | zero => simp [cyclesFrom, cycleCount]
  | succ n ih => simp [cyclesFrom, cycleCount_append, cycleCount_thread_cycle, ih]; omega

theorem thread_loop_first_false (env : Env) (g : Globals) (m : Nat) :
    ∀ (start fuel : Nat), env.running (start + m) = false →
      (∀ j < m, env.running (start + j) = true) → m < fuel →
      thread_loop env g fuel start true =
        some (cyclesFrom env g start (m + 1) ++ [Call.pthread_exit]) := by
  induction m with
  | zero =>
    intro start fuel hfalse _ hfuel
    obtain ⟨f, rfl⟩ : ∃ f, fuel = f + 1 := ⟨fuel - 1, by omega⟩
    have hr : env.running start = false := by simpa using hfalse
    simp [thread_loop, hr, cyclesFrom]
  | succ m ih =>
    intro start fuel hfalse htrue hfuel
    obtain ⟨f, rfl⟩ : ∃ f, fuel = f + 1 := ⟨fuel - 1, by omega⟩
    have hr : env.running start = true := by simpa using htrue 0 (by omega)
    have hnext := ih (start + 1) f
      (by rw [← hfalse]; congr 1; omega)
      (fun j hj => by rw [← htrue (j + 1) (by omega)]; congr 1; omega)
      (by omega)
    simp only [thread_loop, hr, hnext]
    simp [cyclesFrom, List.append_assoc]

theorem thread_loop_out_of_fuel (env : Env) (g : Globals) (fuel : Nat) :
    ∀ (start : Nat), (∀ j < fuel, env.running (start + j) = true) →
      thread_loop env g fuel start true = none := by
  induction fuel with
  | zero => intro start _; simp [thread_loop]
  | succ f ih =>
    intro start htrue
    have hr : env.running start = true := by simpa using htrue 0 (by omega)
    have hnext := ih (start + 1)
      (fun j hj => by rw [← htrue (j + 1) (by omega)]; congr 1; omega)
    simp only [thread_loop, hr, hnext]

/-- Claim C8: when the readings of the running flag are true `k` times and
then false, the thread terminates (for every fuel above `k`) after exactly
`k + 1` passes through its loop body and then calls `pthread_exit`; each pass
is: lock, the update of the three rows from a fresh snapshot, the reading of
the flag, unlock, `sleep(delay)`, in this order; with fuel `k` or less the
thread has not ended yet. -/
theorem thread_terminates_after_first_false (env : Env) (g : Globals) (k fuel : Nat)
    (hfalse : env.running k = false) (htrue : ∀ j < k, env.running j = true)
    (hfuel : k < fuel) :
    thread env g fuel = some (cyclesFrom env g 0 (k + 1) ++ [Call.pthread_exit]) ∧
    cycleCount (cyclesFrom env g 0 (k + 1) ++ [Call.pthread_exit]) = k + 1 ∧
    (∀ j, thread_cycle env g j =
      Call.cgui_lock ::
        (update_all (env.snapshot j) (env.nprocs j) g.alert ++
          [Call.cgui_is_running (env.running j), Call.cgui_unlock, Call.sleep g.delay])) ∧
    (∀ f, f ≤ k → thread env g f = none) := by
  refine ⟨?_, ?_, ?_, ?_⟩
  · unfold thread
    exact thread_loop_first_false env g k 0 fuel (by simpa using hfalse)
      (fun j hj => by simpa using htrue j hj) hfuel
  · rw [cycleCount_append, cycleCount_cyclesFrom]
    simp [cycleCount]
  · intro j
    simp [thread_cycle]
  · intro f hf
    unfold thread
    exact thread_loop_out_of_fuel env g f 0
      (fun j hj => by simpa using htrue j (by omega))

theorem thread_terminates_after_first_false_witness :
    thread ⟨fun _ => ⟨0, 17179869184, 858993459, 0, 0, 1⟩, fun _ => 4, fun j => decide (j < 2)⟩
        initial 3 =
      some (cyclesFrom
        ⟨fun _ => ⟨0, 17179869184, 858993459, 0, 0, 1⟩, fun _ => 4, fun j => decide (j < 2)⟩
        initial 0 3 ++ [Call.pthread_exit]) :=
  (thread_terminates_after_first_false
    ⟨fun _ => ⟨0, 17179869184, 858993459, 0, 0, 1⟩, fun _ => 4, fun j => decide (j < 2)⟩
    initial 2 3 (by decide) (by intro j hj; simpa using hj) (by decide)).1

/-! ## Shutdown latency -/

theorem thread_run_done (d : Nat) (flag : Nat → Bool) (fuel i : Nat) (s : ThreadState)
    (h : s.pc = Pc.done) : thread_run d flag fuel i s = some s := by
  cases fuel <;> simp [thread_run, h]

theorem shutdownLatency_of_fuel (d : Nat) (p : Pc) (n : Nat) (hp : p ∈ cyclePoints) :
    shutdownLatency d p (n + 9) =
      some (if p = Pc.unlock ∨ p = Pc.sleep then 2 * d else d) := by
  simp only [cyclePoints, List.mem_cons, List.mem_singleton, List.not_mem_nil, or_false] at hp
  rcases hp with h | h | h | h | h <;> subst h <;>
    simp [shutdownLatency, atPoint, thread_run, thread_step, thread_run_done] <;> omega

theorem shutdownLatency_short (fuel : Nat) (h : fuel < 8) :
    shutdownLatency 1 Pc.sleep fuel = none := by
  interval_cases fuel <;> rfl

/-- Claim C7, amended: when the running flag turns false while the thread is
at a point of its cycle, the thread reaches `pthread_exit` (for every fuel of
9 statements or more) and the seconds it still sleeps are `delay` when the
flag turns before it is read in this cycle (at lock, update or read) and
`2 * delay` when it turns after the reading (at unlock or sleep): at most
`2 * delay` in every case. -/
theorem shutdown_latency_bound (d : Nat) (p : Pc) (fuel : Nat)
    (hp : p ∈ cyclePoints) (hfuel : 9 ≤ fuel) :
    shutdownLatency d p fuel = some (if p = Pc.unlock ∨ p = Pc.sleep then 2 * d else d) ∧
    (∃ t, shutdownLatency d p fuel = some t ∧ t ≤ 2 * d) := by
  obtain ⟨n, rfl⟩ : ∃ n, fuel = n + 9 := ⟨fuel - 9, by omega⟩
  refine ⟨shutdownLatency_of_fuel d p n hp, _, shutdownLatency_of_fuel d p n hp, ?_⟩
  split_ifs <;> omega

theorem shutdown_latency_bound_witness :
    shutdownLatency 3 Pc.read 9 = some 3 ∧ shutdownLatency 3 Pc.sleep 9 = some 6 :=
  ⟨(shutdown_latency_bound 3 Pc.read 9 (by decide) (by decide)).1,
   (shutdown_latency_bound 3 Pc.sleep 9 (by decide) (by decide)).1⟩

/-- Claim C7 as stated fails: with `delay = 1`, the thread reaches the point
before `sleep`, after `cgui_unlock`, with `run` true after five statements; if
the running flag turns false there, the thread sleeps 2 seconds in total
before `pthread_exit`, which is more than `delay`. -/
theorem shutdown_latency_exceeds_delay :
    thread_step 1 true (thread_step 1 true (thread_step 1 true (thread_step 1 true
      (thread_step 1 true ⟨Pc.test, true, 0⟩)))) = atPoint Pc.sleep 0 ∧
    shutdownLatency 1 Pc.sleep 9 = some 2 ∧
    ¬ (∀ d, 1 ≤ d → ∀ p ∈ cyclePoints,
        ∃ fuel t, shutdownLatency d p fuel = some t ∧ t ≤ d) := by
  refine ⟨rfl, rfl, ?_⟩
  intro h
  obtain ⟨fuel, t, hs, ht⟩ := h 1 (le_refl 1) Pc.sleep (by decide)
  by_cases hf : fuel < 8
  · rw [shutdownLatency_short fuel hf] at hs
    cases hs
  · rcases Nat.lt_or_ge fuel 9 with h8 | h9
    · have h8e : fuel = 8 := by omega
      subst h8e
      have h2 : shutdownLatency 1 Pc.sleep 8 = some 2 := rfl
      rw [h2] at hs
      simp at hs
      omega
    · obtain ⟨n, rfl⟩ : ∃ n, fuel = n + 9 := ⟨fuel - 9, by omega⟩
      rw [shutdownLatency_of_fuel 1 Pc.sleep n (by decide)] at hs
      simp at hs
      omega

end Sysgauge
